import Mathlib

/-!
Verification of the game-data-collector scripts.

Shallow embedding of the pure cores of the five Python scripts:
`fetch_game_logs.py`, `playoff-logs/fetch_playoff_logs.py`,
`player-bios/fetch_player_bio.py`, `supabase-upload/nba_player_upload.py`
and `supabase-upload/simplified_nba_upload.py`.

Strings are modelled as `List Char` (`Str`).  HTTP traffic is modelled by
oracles: a function giving the outcome of each successive attempt.  The
filesystem is modelled as the list of paths of existing files.
-/

set_option linter.unusedVariables false

/-- Strings of the embedding: Python `str` as a list of characters. -/
abbrev Str := List Char

/-- Characters stripped by Python `str.strip()` (ASCII whitespace). -/
def isPySpace (c : Char) : Bool :=
  c == ' ' || c == '\t' || c == '\n' || c == '\r' || c == '\x0b' || c == '\x0c'

/-- Python `s.strip()`: remove leading and trailing whitespace. -/
def pyStrip (s : Str) : Str :=
  ((s.dropWhile isPySpace).reverse.dropWhile isPySpace).reverse

/-- Python `s.lower()` restricted to ASCII case folding. -/
def pyLower (s : Str) : Str := s.map Char.toLower

/-- Python substring test `needle in haystack`. -/
def pyContains (haystack needle : Str) : Bool :=
  haystack.tails.any (fun t => needle.isPrefixOf t)

/-- Python `s.split()` with no argument: split on whitespace runs,
dropping empty parts. -/
def pySplitWs (s : Str) : List Str :=
  (s.splitOnP isPySpace).filter (fun p => p ≠ [])

/-- The character class `[A-Za-z0-9]` of the slugify regular expression. -/
def isSlugChar (c : Char) : Bool :=
  (65 ≤ c.toNat && c.toNat ≤ 90) || (97 ≤ c.toNat && c.toNat ≤ 122) ||
    (48 ≤ c.toNat && c.toNat ≤ 57)

/-- Worker for `re.sub(r'[^A-Za-z0-9]+', '_', s)`: the flag records whether
we are inside a run of non-alphanumeric characters that has already emitted
its single replacement underscore. -/
def collapseGo : Bool → Str → Str
  | _, [] => []
  | inRun, c :: cs =>
    if isSlugChar c then c :: collapseGo false cs
    else if inRun then collapseGo true cs
    else '_' :: collapseGo true cs

/-- `re.sub(r'[^A-Za-z0-9]+', '_', s)`: every maximal run of characters
outside `[A-Za-z0-9]` becomes a single underscore. -/
def collapseNonAlnum (s : Str) : Str := collapseGo false s

/-- Python `s.strip('_')`. -/
def stripUnderscores (s : Str) : Str :=
  ((s.dropWhile (fun c => c == '_')).reverse.dropWhile (fun c => c == '_')).reverse

/-- Python `s.encode('ascii', 'ignore').decode()`: drop every non-ASCII
character. -/
def encodeAsciiIgnore (s : Str) : Str := s.filter (fun c => c.toNat < 128)

namespace GameLogs

/-- `slugify` of `fetch_game_logs.py` (lines 45-47).  The source first
applies `unicodedata.normalize('NFKD', name)`, which rewrites the input to
a canonically decomposed string and is the identity on ASCII input; the
embedding takes that decomposed string as its argument, so the theorems
below quantify over every possible output of the normalization step. -/
def slugify (name : Str) : Str :=
  stripUnderscores (collapseNonAlnum (encodeAsciiIgnore name))

end GameLogs

namespace Playoff

/-- `slugify` of `fetch_playoff_logs.py` (lines 30-32); the source text is
the same pipeline as in `fetch_game_logs.py`. -/
def slugify (name : Str) : Str :=
  stripUnderscores (collapseNonAlnum (encodeAsciiIgnore name))

end Playoff

namespace Bios

/-- `slugify` of `fetch_player_bio.py` (lines 39-41); the source text is
the same pipeline as in the other two scripts. -/
def slugify (name : Str) : Str :=
  stripUnderscores (collapseNonAlnum (encodeAsciiIgnore name))

end Bios

/-! ### Lemmas about slugify -/

/-! ### Season windows (`main` of the two log-fetch scripts) -/

/-- Python `int(s)` on a string with no interior sign handling beyond a
single leading `+`/`-`: strip whitespace, optional sign, then a non-empty
run of decimal digits; any other input raises `ValueError` (`none`). -/
def pyInt (s : Str) : Option Int :=
  let t := pyStrip s
  match t with
  | '+' :: d => (digitsVal d).map (fun n => (n : Int))
  | '-' :: d => (digitsVal d).map (fun n => -(n : Int))
  | d => (digitsVal d).map (fun n => (n : Int))
where
  /-- value of a non-empty all-digit string -/
  digitsVal (d : Str) : Option Nat :=
    if d ≠ [] && d.all (fun c => 48 ≤ c.toNat && c.toNat ≤ 57) then
      some (d.foldl (fun acc c => 10 * acc + (c.toNat - 48)) 0)
    else none

/-- Python `s.split('-')[0]`: the text before the first `'-'`. -/
def beforeDash (s : Str) : Str := s.takeWhile (fun c => c ≠ '-')

namespace GameLogs

/-- `f"{year}-{str(year+1)[-2:]}"` from `fetch_game_logs.py` line 116. -/
def seasonStr (year : Nat) : Str :=
  let next := (toString (year + 1)).toList
  (toString year).toList ++ '-' :: next.drop (next.length - 2)

/-- The `target_seasons` computation of `fetch_game_logs.py` `main`
(lines 113-118): iterate `range(2022, 2009, -1)` and keep the season
strings present among the roster keys, in that order. -/
def targetSeasons (rosterKeys : List Str) : List Str :=
  (((List.range 13).map (fun i => 2022 - i)).map seasonStr).filter
    (fun s => rosterKeys.contains s)

end GameLogs

/-- The thirteen season strings `"2022-23"` down through `"2010-11"`. -/
def gameLogWindow : List Str :=
  ["2022-23", "2021-22", "2020-21", "2019-20", "2018-19", "2017-18",
   "2016-17", "2015-16", "2014-15", "2013-14", "2012-13", "2011-12",
   "2010-11"].map String.toList

namespace Playoff

/-- `int(season.split('-')[0])` with the `ValueError` branch of
`fetch_playoff_logs.py` lines 130-135 mapped to `none`. -/
def startYear (s : Str) : Option Int := pyInt (beforeDash s)

/-- The sort key used on the already-filtered list (every element parses). -/
def startYearD (s : Str) : Int := (startYear s).getD 0

/-- Stable insertion into a descending-by-key list: `x` is placed before
the first element with a strictly smaller key, hence after every earlier
element with an equal key (the stability of Python `list.sort`). -/
def insertDesc (x : Str) : List Str → List Str
  | [] => [x]
  | y :: ys => if startYearD x ≥ startYearD y then x :: y :: ys
               else y :: insertDesc x ys

/-- Stable descending sort by starting year, modelling
`filtered_seasons.sort(key=..., reverse=True)`. -/
def sortByYearDesc : List Str → List Str
  | [] => []
  | x :: xs => insertDesc x (sortByYearDesc xs)

/-- The `filtered_seasons` computation of `fetch_playoff_logs.py` `main`
(lines 124-138): keep the roster seasons whose starting year parses and
lies between 2015 and 2024, then sort them by starting year, descending. -/
def filteredSeasons (rosterKeys : List Str) : List Str :=
  sortByYearDesc (rosterKeys.filter (fun s =>
    match startYear s with
    | some y => decide (2015 ≤ y) && decide (y ≤ 2024)
    | none => false))

end Playoff

/-! ### Player-ID lookup (`find_player_id`, `player_id_from_name`,
`NBADataFetcher.search_player_by_name`) -/

/-- A hit returned by `nba_api`'s `players.find_players_by_full_name`:
the fields the scripts read. -/
structure StaticPlayer where
  full_name : Str
  id : Nat
deriving DecidableEq

/-- Case-insensitive full-name equality, `h['full_name'].lower() ==
name.lower()` (ASCII case folding). -/
def exactStatic (name : Str) (h : StaticPlayer) : Bool :=
  pyLower h.full_name == pyLower name

namespace GameLogs

/-- The exact-match loop shared by the three static lookups: return the id
of the first case-insensitive full-name match. -/
def findExact (name : Str) : List StaticPlayer → Option Nat
  | [] => none
  | h :: t => if exactStatic name h then some h.id else findExact name t

/-- `find_player_id` of `fetch_game_logs.py` (lines 65-73): `None` when
there is no hit, else the first perfect case match, else the first hit. -/
def findPlayerId (name : Str) (hits : List StaticPlayer) : Option Nat :=
  match hits with
  | [] => none
  | h0 :: _ =>
    match findExact name hits with
    | some i => some i
    | none => some h0.id

end GameLogs

namespace Playoff

/-- `find_player_id` of `fetch_playoff_logs.py` (lines 48-53): first exact
match, else `hits[0]['id'] if hits else None`. -/
def findPlayerId (name : Str) (hits : List StaticPlayer) : Option Nat :=
  match GameLogs.findExact name hits with
  | some i => some i
  | none => hits.head?.map (fun h => h.id)

end Playoff

namespace Bios

/-- `player_id_from_name` of `fetch_player_bio.py` (lines 53-58): the same
loop as the playoff script's `find_player_id`. -/
def playerIdFromName (name : Str) (hits : List StaticPlayer) : Option Nat :=
  match GameLogs.findExact name hits with
  | some i => some i
  | none => hits.head?.map (fun h => h.id)

end Bios

/-- A row of the `commonallplayers` directory as the uploaders read it
(`dict(zip(headers, row))` restricted to the fields that are consumed;
the known JSON shape of the endpoint carries all three). -/
structure DirPlayer where
  displayFirstLast : Str
  displayLastCommaFirst : Str
  personId : Nat
deriving DecidableEq

namespace Upload

/-- Exact-match test of `search_player_by_name` (both uploader scripts):
the normalized query equals either display-name format, lowercased. -/
def exactDir (normalized : Str) (p : DirPlayer) : Bool :=
  (pyLower p.displayFirstLast == normalized) ||
    (pyLower p.displayLastCommaFirst == normalized)

/-- Partial-match test of `search_player_by_name`: the normalized query is
a substring of the lowercased display name, or every whitespace-separated
part of it is. -/
def partialDir (normalized : Str) (p : DirPlayer) : Bool :=
  let display := pyLower p.displayFirstLast
  pyContains display normalized ||
    (pySplitWs normalized).all (fun part => pyContains display part)

/-- The exact-match `for` loop: id of the first row matching exactly. -/
def exactLoop (normalized : Str) : List DirPlayer → Option Nat
  | [] => none
  | p :: ps => if exactDir normalized p then some p.personId
               else exactLoop normalized ps

/-- The `partial_matches` list comprehension (id and display name of every
fuzzy hit, in directory order). -/
def partialMatches (normalized : Str) (ps : List DirPlayer) :
    List (Nat × Str) :=
  (ps.filter (partialDir normalized)).map
    (fun p => (p.personId, p.displayFirstLast))

/-- `NBADataFetcher.search_player_by_name` (identical in
`nba_player_upload.py` lines 221-275 and `simplified_nba_upload.py` lines
184-238), applied to the fetched directory: `none` when the directory
fetch failed or the list is falsy, else exact match first, then the first
partial match. -/
def searchPlayerByName (name : Str) (allPlayers : Option (List DirPlayer)) :
    Option Nat :=
  match allPlayers with
  | none => none
  | some ps =>
    if ps = [] then none
    else
      let normalized := pyStrip (pyLower name)
      match exactLoop normalized ps with
      | some pid => some pid
      | none => (partialMatches normalized ps).head?.map (fun m => m.1)

end Upload

/-! ### HTTP attempts and retries -/

/-- Outcome of one `nba_api` endpoint call inside a worker: a data frame
with `rows` rows, or an exception (`isTimeout` marks
`ReadTimeout`/`Timeout`). -/
inductive AttemptOutcome
  | ok (rows : Nat)
  | exc (isTimeout : Bool) (msg : Str)
deriving DecidableEq

/-- Result of one worker task: the returned tuple, the number of HTTP
requests issued, whether the CSV was written, and the backoff sleeps taken
between attempts. -/
structure FetchResult where
  name : Str
  success : Bool
  status : Str
  attempts : Nat
  wrote : Bool
  retryBackoffs : List Nat
deriving DecidableEq

namespace Playoff

/-- `fetch_and_save` of `fetch_playoff_logs.py` (lines 57-103): skip when
the slug-keyed CSV exists, fail without a request when the id lookup
misses, then `for attempt in (1, 2)`: a non-empty log is written, an empty
one fails, a timeout is retried once after a fixed 60-second sleep, any
other exception fails immediately.  The trailing `return 'unknown'` of the
source is unreachable (every branch of the second iteration returns). -/
def fetchAndSave (name : Str) (fileExists : Bool) (pid : Option Nat)
    (oracle : Nat → AttemptOutcome) : FetchResult :=
  if fileExists then ⟨name, true, "already".toList, 0, false, []⟩
  else match pid with
  | none => ⟨name, false, "no_id".toList, 0, false, []⟩
  | some _ =>
    match oracle 0 with
    | .ok 0 => ⟨name, false, "empty".toList, 1, false, []⟩
    | .ok (_ + 1) => ⟨name, true, "ok".toList, 1, true, []⟩
    | .exc false e => ⟨name, false, "error:".toList ++ e, 1, false, []⟩
    | .exc true _ =>
      match oracle 1 with
      | .ok 0 => ⟨name, false, "empty".toList, 2, false, [60]⟩
      | .ok (_ + 1) => ⟨name, true, "ok".toList, 2, true, [60]⟩
      | .exc false e => ⟨name, false, "error:".toList ++ e, 2, false, [60]⟩
      | .exc true _ => ⟨name, false, "timeout".toList, 2, false, [60]⟩

end Playoff

namespace GameLogs

/-- `fetch_save` of `fetch_game_logs.py` (lines 75-96): no existence
check and no retry; a missing id fails without a request, an empty frame
fails, a non-empty frame is written, and any exception (timeouts
included) fails with its message. -/
def fetchSave (name : Str) (pid : Option Nat)
    (oracle : Nat → AttemptOutcome) : FetchResult :=
  match pid with
  | none => ⟨name, false, "Player ID not found".toList, 0, false, []⟩
  | some _ =>
    match oracle 0 with
    | .ok 0 => ⟨name, false, "Empty log".toList, 1, false, []⟩
    | .ok (_ + 1) => ⟨name, true, [], 1, true, []⟩
    | .exc _ e => ⟨name, false, e, 1, false, []⟩

end GameLogs

/-- Outcome of one `requests.get` inside `_make_api_request`: success,
a redirect status (the `nba_player_upload.py` variant sends
`allow_redirects=False`), an HTTP error status (4xx/5xx, raised by
`raise_for_status`), or a network error with no response object. -/
inductive ReqOutcome
  | ok
  | redirect
  | httpError (status : Nat)
  | netError
deriving DecidableEq

namespace Upload

/-- The `while retries <= self.max_retries` loop of
`NBADataFetcher._make_api_request` in `nba_player_upload.py` (lines
106-165).  `gas` only bounds the recursion: the caller passes
`maxRetries + 2`, and since every iteration increments `retries`, the
`retries ≤ maxRetries` guard always fails before the gas runs out.
Returns the result (`some ()` for a parsed JSON body) and the number of
`requests.get` calls issued. -/
def apiLoop (maxRetries : Nat) (skip500 : Bool) (oracle : Nat → ReqOutcome) :
    Nat → Nat → Nat → Option Unit × Nat
  | 0, _, _ => (none, 0)
  | gas + 1, retries, attempt =>
    if retries ≤ maxRetries then
      match oracle attempt with
      | .ok => (some (), 1)
      | .redirect =>
        let r := apiLoop maxRetries skip500 oracle gas (retries + 1) (attempt + 1)
        (r.1, r.2 + 1)
      | .httpError s =>
        -- pre-`raise_for_status` check (line 125), then the `except`
        -- branch: `retries += 1` followed by the 429/500 dispatch; the
        -- post-increment 500 check fires whenever `skip500` holds
        if s = 500 ∧ skip500 ∧ 0 < retries then (none, 1)
        else if s = 500 ∧ skip500 then (none, 1)
        else if retries + 1 ≤ maxRetries then
          let r := apiLoop maxRetries skip500 oracle gas (retries + 1) (attempt + 1)
          (r.1, r.2 + 1)
        else (none, 1)
      | .netError =>
        if retries + 1 ≤ maxRetries then
          let r := apiLoop maxRetries skip500 oracle gas (retries + 1) (attempt + 1)
          (r.1, r.2 + 1)
        else (none, 1)
    else (none, 0)

/-- `_make_api_request` of `nba_player_upload.py`: run the retry loop from
`retries = 0`. -/
def makeApiRequest (maxRetries : Nat) (skip500 : Bool)
    (oracle : Nat → ReqOutcome) : Option Unit × Nat :=
  apiLoop maxRetries skip500 oracle (maxRetries + 2) 0 0

end Upload

namespace Simplified

/-- The retry loop of `NBADataFetcher._make_api_request` in
`simplified_nba_upload.py` (lines 89-127): no redirect handling and no
500 special case; every `RequestException` is retried with backoff until
`retries` exceeds `max_retries`. -/
def apiLoop (maxRetries : Nat) (oracle : Nat → ReqOutcome) :
    Nat → Nat → Nat → Option Unit × Nat
  | 0, _, _ => (none, 0)
  | gas + 1, retries, attempt =>
    if retries ≤ maxRetries then
      match oracle attempt with
      | .ok => (some (), 1)
      | _ =>
        if retries + 1 ≤ maxRetries then
          let r := apiLoop maxRetries oracle gas (retries + 1) (attempt + 1)
          (r.1, r.2 + 1)
        else (none, 1)
    else (none, 0)

/-- `_make_api_request` of `simplified_nba_upload.py`. -/
def makeApiRequest (maxRetries : Nat) (oracle : Nat → ReqOutcome) :
    Option Unit × Nat :=
  apiLoop maxRetries oracle (maxRetries + 2) 0 0

end Simplified

/-! ### Per-season task runs over the filesystem -/

namespace Playoff

/-- `out_dir / f"{slugify(player_name)}.csv"`: the CSV path a playoff task
reads and writes. -/
def taskPath (outDir name : Str) : Str :=
  outDir ++ '/' :: (slugify name ++ ".csv".toList)

/-- One season of `fetch_playoff_logs.py` `main` executed in a given task
order: each worker checks its own CSV path against the current
filesystem, fetches, and possibly writes.  `pids` is the id directory and
`oracles` the per-player HTTP outcomes; the filesystem is the list of
existing paths. -/
def seqRun (outDir : Str) (pids : Str → Option Nat)
    (oracles : Str → Nat → AttemptOutcome) :
    List Str → List Str → List Str × List FetchResult
  | fs, [] => (fs, [])
  | fs, n :: ns =>
    let p := taskPath outDir n
    let r := fetchAndSave n (decide (p ∈ fs)) (pids n) (oracles n)
    let fs2 := if r.wrote then p :: fs else fs
    let rest := seqRun outDir pids oracles fs2 ns
    (rest.1, r :: rest.2)

/-- Whether a playoff task would write its CSV when its path is absent. -/
def wouldWrite (pids : Str → Option Nat)
    (oracles : Str → Nat → AttemptOutcome) (n : Str) : Bool :=
  (fetchAndSave n false (pids n) (oracles n)).wrote

end Playoff

namespace GameLogs

/-- `out_dir / f"{slugify(player_name)}.csv"` of `fetch_game_logs.py`. -/
def taskPath (outDir name : Str) : Str :=
  outDir ++ '/' :: (slugify name ++ ".csv".toList)

/-- One season of `fetch_game_logs.py` `main` executed in a given task
order; `fetch_save` never reads the filesystem, it only writes on a
non-empty log. -/
def seqRun (outDir : Str) (pids : Str → Option Nat)
    (oracles : Str → Nat → AttemptOutcome) :
    List Str → List Str → List Str × List FetchResult
  | fs, [] => (fs, [])
  | fs, n :: ns =>
    let r := fetchSave n (pids n) (oracles n)
    let fs2 := if r.wrote then taskPath outDir n :: fs else fs
    let rest := seqRun outDir pids oracles fs2 ns
    (rest.1, r :: rest.2)

end GameLogs

/-! ### The all-players cache (`NBADataFetcher.fetch_all_players`) -/

namespace Upload

/-- The mutable state of an `NBADataFetcher`: `self.all_players_cache`,
initialized to `None` in `__init__`. -/
structure FetcherState where
  allPlayersCache : Option (List DirPlayer)
deriving DecidableEq

/-- `NBADataFetcher.fetch_all_players` (identical in both uploader
scripts, lines 167-219 and 129-182).  `resp` is the parsed
`commonallplayers` body the underlying `_make_api_request` call would
deliver: `none` models both a failed request and a body without result
sets, `some []` an empty `rowSet` (the code then returns `None` without
caching).  The returned `Nat` counts calls to `_make_api_request` (each
of which may itself issue several HTTP attempts): `0` on a cache hit. -/
def fetchAllPlayers (st : FetcherState) (forceRefresh : Bool)
    (resp : Option (List DirPlayer)) :
    Option (List DirPlayer) × FetcherState × Nat :=
  match st.allPlayersCache, forceRefresh with
  | some cached, false => (some cached, st, 0)
  | _, _ =>
    match resp with
    | none => (none, st, 1)
    | some [] => (none, st, 1)
    | some rows => (some rows, ⟨some rows⟩, 1)

/-- `NBADataFetcher.search_player_by_name` with its state: it calls
`fetch_all_players()` (no `force_refresh`) and searches the result. -/
def searchPlayerByNameSt (st : FetcherState) (name : Str)
    (resp : Option (List DirPlayer)) : Option Nat × FetcherState × Nat :=
  let r := fetchAllPlayers st false resp
  (searchPlayerByName name r.1, r.2.1, r.2.2)

end Upload

/-! ### Remote persistence (`SupabaseUploader.store_*`) -/

/-- A Python value as it appears in the API dicts the uploaders read. -/
inductive PyVal
  | pnone
  | pint (i : Int)
  | pstr (s : Str)
deriving DecidableEq

/-- A parsed API dict (`dict(zip(headers, row_data))`). -/
abbrev PyDict := List (Str × PyVal)

/-- Python `d.get(k)`: the first binding of `k`, defaulting to `None`. -/
def pyGet (d : PyDict) (k : Str) : PyVal :=
  match d.find? (fun kv => kv.1 == k) with
  | some kv => kv.2
  | none => PyVal.pnone

/-- PostgREST `table.upsert(row, on_conflict=key)`: insert-or-update
keyed by the conflict column — the row whose key equals the new row's is
replaced, otherwise the new row is appended. -/
def upsertOn {R K : Type} [DecidableEq K] (key : R → K) (r : R) :
    List R → List R
  | [] => [r]
  | x :: xs => if key x = key r then r :: xs else x :: upsertOn key r xs

namespace Upload

/-- A row of the `nba_players` table as `store_player_basic_info` of
`nba_player_upload.py` (lines 477-530) formats it; `updated_at` is the
`datetime.now().isoformat()` timestamp, supplied as a parameter. -/
structure BasicInfoRow where
  player_id : PyVal
  first_name : PyVal
  last_name : PyVal
  full_name : PyVal
  jersey_number : PyVal
  position : PyVal
  height : PyVal
  weight : PyVal
  birth_date : PyVal
  country : PyVal
  school : PyVal
  draft_year : PyVal
  draft_round : PyVal
  draft_number : PyVal
  team_id : PyVal
  team_name : PyVal
  from_year : PyVal
  to_year : PyVal
  updated_at : Str
deriving DecidableEq

/-- The `formatted_data` dict of `store_player_basic_info`. -/
def formatBasicInfo (d : PyDict) (now : Str) : BasicInfoRow where
  player_id := pyGet d "PERSON_ID".toList
  first_name := pyGet d "FIRST_NAME".toList
  last_name := pyGet d "LAST_NAME".toList
  full_name := pyGet d "DISPLAY_FIRST_LAST".toList
  jersey_number := pyGet d "JERSEY".toList
  position := pyGet d "POSITION".toList
  height := pyGet d "HEIGHT".toList
  weight := pyGet d "WEIGHT".toList
  birth_date := pyGet d "BIRTHDATE".toList
  country := pyGet d "COUNTRY".toList
  school := pyGet d "SCHOOL".toList
  draft_year := pyGet d "DRAFT_YEAR".toList
  draft_round := pyGet d "DRAFT_ROUND".toList
  draft_number := pyGet d "DRAFT_NUMBER".toList
  team_id := pyGet d "TEAM_ID".toList
  team_name := pyGet d "TEAM_NAME".toList
  from_year := pyGet d "FROM_YEAR".toList
  to_year := pyGet d "TO_YEAR".toList
  updated_at := now

/-- `store_player_basic_info`: upsert into `nba_players` with
`on_conflict="player_id"`. -/
def store_player_basic_info (t : List BasicInfoRow) (d : PyDict)
    (now : Str) : List BasicInfoRow :=
  upsertOn (fun r => r.player_id) (formatBasicInfo d now) t

/-- A row of `player_current_stats` as `store_player_current_stats`
(lines 532-591) formats it; `additional_stats` is the nested JSON dict. -/
structure CurrentStatsRow where
  player_id : Nat
  season : Str
  games_played : PyVal
  ppg : PyVal
  rpg : PyVal
  apg : PyVal
  spg : PyVal
  bpg : PyVal
  fg_pct : PyVal
  ft_pct : PyVal
  fg3_pct : PyVal
  minutes : PyVal
  additional_stats : List (Str × PyVal)
  updated_at : Str
deriving DecidableEq

/-- The `formatted_data` dict of `store_player_current_stats` (the
`season` column is the constant `CURRENT_SEASON = "2024-25"`). -/
def formatCurrentStats (pid : Nat) (d : PyDict) (now : Str) :
    CurrentStatsRow where
  player_id := pid
  season := "2024-25".toList
  games_played := pyGet d "GP".toList
  ppg := pyGet d "PTS".toList
  rpg := pyGet d "REB".toList
  apg := pyGet d "AST".toList
  spg := pyGet d "STL".toList
  bpg := pyGet d "BLK".toList
  fg_pct := pyGet d "FG_PCT".toList
  ft_pct := pyGet d "FT_PCT".toList
  fg3_pct := pyGet d "FG3_PCT".toList
  minutes := pyGet d "MIN".toList
  additional_stats :=
    [("fg_m".toList, pyGet d "FGM".toList),
     ("fg_a".toList, pyGet d "FGA".toList),
     ("fg3_m".toList, pyGet d "FG3M".toList),
     ("fg3_a".toList, pyGet d "FG3A".toList),
     ("ft_m".toList, pyGet d "FTM".toList),
     ("ft_a".toList, pyGet d "FTA".toList),
     ("oreb".toList, pyGet d "OREB".toList),
     ("dreb".toList, pyGet d "DREB".toList),
     ("tov".toList, pyGet d "TOV".toList),
     ("pf".toList, pyGet d "PF".toList),
     ("plus_minus".toList, pyGet d "PLUS_MINUS".toList)]
  updated_at := now

/-- `store_player_current_stats`: upsert into `player_current_stats`
with `on_conflict="player_id"`. -/
def store_player_current_stats (t : List CurrentStatsRow) (pid : Nat)
    (d : PyDict) (now : Str) : List CurrentStatsRow :=
  upsertOn (fun r => r.player_id) (formatCurrentStats pid d now) t

/-- A row of `player_career_stats` as `store_player_career_stats`
(lines 593-649) formats it. -/
structure CareerStatsRow where
  player_id : Nat
  games_played : PyVal
  ppg : PyVal
  rpg : PyVal
  apg : PyVal
  spg : PyVal
  bpg : PyVal
  fg_pct : PyVal
  ft_pct : PyVal
  fg3_pct : PyVal
  additional_stats : List (Str × PyVal)
  updated_at : Str
deriving DecidableEq

/-- The `formatted_data` dict of `store_player_career_stats`. -/
def formatCareerStats (pid : Nat) (d : PyDict) (now : Str) :
    CareerStatsRow where
  player_id := pid
  games_played := pyGet d "GP".toList
  ppg := pyGet d "PTS".toList
  rpg := pyGet d "REB".toList
  apg := pyGet d "AST".toList
  spg := pyGet d "STL".toList
  bpg := pyGet d "BLK".toList
  fg_pct := pyGet d "FG_PCT".toList
  ft_pct := pyGet d "FT_PCT".toList
  fg3_pct := pyGet d "FG3_PCT".toList
  additional_stats :=
    [("fg_m".toList, pyGet d "FGM".toList),
     ("fg_a".toList, pyGet d "FGA".toList),
     ("fg3_m".toList, pyGet d "FG3M".toList),
     ("fg3_a".toList, pyGet d "FG3A".toList),
     ("ft_m".toList, pyGet d "FTM".toList),
     ("ft_a".toList, pyGet d "FTA".toList),
     ("oreb".toList, pyGet d "OREB".toList),
     ("dreb".toList, pyGet d "DREB".toList),
     ("tov".toList, pyGet d "TOV".toList),
     ("pf".toList, pyGet d "PF".toList)]
  updated_at := now

/-- `store_player_career_stats`: upsert into `player_career_stats` with
`on_conflict="player_id"`. -/
def store_player_career_stats (t : List CareerStatsRow) (pid : Nat)
    (d : PyDict) (now : Str) : List CareerStatsRow :=
  upsertOn (fun r => r.player_id) (formatCareerStats pid d now) t

/-- A row of `player_season_highs` as `store_player_season_highs`
(lines 651-701) formats it. -/
structure SeasonHighsRow where
  player_id : Nat
  season : Str
  points : PyVal
  rebounds : PyVal
  assists : PyVal
  steals : PyVal
  blocks : PyVal
  highest_minutes : PyVal
  additional_highs : List (Str × PyVal)
  updated_at : Str
deriving DecidableEq

/-- The `formatted_data` dict of `store_player_season_highs`. -/
def formatSeasonHighs (pid : Nat) (d : PyDict) (now : Str) :
    SeasonHighsRow where
  player_id := pid
  season := "2024-25".toList
  points := pyGet d "PTS".toList
  rebounds := pyGet d "REB".toList
  assists := pyGet d "AST".toList
  steals := pyGet d "STL".toList
  blocks := pyGet d "BLK".toList
  highest_minutes := pyGet d "MIN".toList
  additional_highs :=
    [("field_goals_made".toList, pyGet d "FGM".toList),
     ("three_pointers_made".toList, pyGet d "FG3M".toList),
     ("free_throws_made".toList, pyGet d "FTM".toList),
     ("offensive_rebounds".toList, pyGet d "OREB".toList),
     ("defensive_rebounds".toList, pyGet d "DREB".toList),
     ("turnovers".toList, pyGet d "TOV".toList)]
  updated_at := now

/-- `store_player_season_highs`: upsert into `player_season_highs` with
`on_conflict="player_id"`. -/
def store_player_season_highs (t : List SeasonHighsRow) (pid : Nat)
    (d : PyDict) (now : Str) : List SeasonHighsRow :=
  upsertOn (fun r => r.player_id) (formatSeasonHighs pid d now) t

end Upload

namespace Simplified

/-- A row of `nba_players` as `store_player_basic_info` of
`simplified_nba_upload.py` (lines 360-415) formats it: the same columns
as the other uploader plus `headshot_url`. -/
structure BasicInfoRow where
  player_id : PyVal
  first_name : PyVal
  last_name : PyVal
  full_name : PyVal
  jersey_number : PyVal
  position : PyVal
  height : PyVal
  weight : PyVal
  birth_date : PyVal
  country : PyVal
  school : PyVal
  draft_year : PyVal
  draft_round : PyVal
  draft_number : PyVal
  team_id : PyVal
  team_name : PyVal
  from_year : PyVal
  to_year : PyVal
  headshot_url : Str
  updated_at : Str
deriving DecidableEq

/-- The `formatted_data` dict of the simplified
`store_player_basic_info`. -/
def formatBasicInfo (d : PyDict) (headshotUrl : Str) (now : Str) :
    BasicInfoRow where
  player_id := pyGet d "PERSON_ID".toList
  first_name := pyGet d "FIRST_NAME".toList
  last_name := pyGet d "LAST_NAME".toList
  full_name := pyGet d "DISPLAY_FIRST_LAST".toList
  jersey_number := pyGet d "JERSEY".toList
  position := pyGet d "POSITION".toList
  height := pyGet d "HEIGHT".toList
  weight := pyGet d "WEIGHT".toList
  birth_date := pyGet d "BIRTHDATE".toList
  country := pyGet d "COUNTRY".toList
  school := pyGet d "SCHOOL".toList
  draft_year := pyGet d "DRAFT_YEAR".toList
  draft_round := pyGet d "DRAFT_ROUND".toList
  draft_number := pyGet d "DRAFT_NUMBER".toList
  team_id := pyGet d "TEAM_ID".toList
  team_name := pyGet d "TEAM_NAME".toList
  from_year := pyGet d "FROM_YEAR".toList
  to_year := pyGet d "TO_YEAR".toList
  headshot_url := headshotUrl
  updated_at := now

/-- `store_player_basic_info` of `simplified_nba_upload.py`: upsert into
`nba_players` with `on_conflict="player_id"`. -/
def store_player_basic_info (t : List BasicInfoRow) (d : PyDict)
    (headshotUrl : Str) (now : Str) : List BasicInfoRow :=
  upsertOn (fun r => r.player_id) (formatBasicInfo d headshotUrl now) t

/-- The `formatted_data` dict of the simplified
`store_player_career_stats` (lines 417-473), identical to the other
uploader's. -/
def formatCareerStats (pid : Nat) (d : PyDict) (now : Str) :
    Upload.CareerStatsRow :=
  Upload.formatCareerStats pid d now

/-- `store_player_career_stats` of `simplified_nba_upload.py`: upsert
into `player_career_stats` with `on_conflict="player_id"`. -/
def store_player_career_stats (t : List Upload.CareerStatsRow) (pid : Nat)
    (d : PyDict) (now : Str) : List Upload.CareerStatsRow :=
  upsertOn (fun r => r.player_id) (formatCareerStats pid d now) t

end Simplified

/-! ### Roster parsing (`parse_roster_txt`) -/

/-- The header tag `'Season:'`. -/
def seasonTag : Str := "Season:".toList

/-- `line.startswith('Season:')` on a stripped line. -/
def isSeasonHeader (s : Str) : Bool := seasonTag.isPrefixOf s

/-- `s.split(sep)[1]` for a string starting with `sep`: the text from
position `|sep|` up to the next occurrence of `sep`. -/
def takeToSep (sep : Str) : Str → Str
  | [] => []
  | c :: cs => if sep.isPrefixOf (c :: cs) then [] else c :: takeToSep sep cs

/-- `line.split('Season:')[1].strip()` as both parsers compute the season
key (the argument is the stripped line, which starts with `Season:`). -/
def codeKey (s : Str) : Str := pyStrip (takeToSep seasonTag (s.drop 7))

/-- The season key as C7 words it: the stripped text after the
`'Season:'` header. -/
def claimedKey (s : Str) : Str := pyStrip (s.drop 7)

/-- Python `seasons[k] = v` on an insertion-ordered dict: overwrite in
place or append. -/
def dictSet : List (Str × List Str) → Str → List Str → List (Str × List Str)
  | [], k, v => [(k, v)]
  | (k0, v0) :: rest, k, v =>
    if k0 = k then (k, v) :: rest else (k0, v0) :: dictSet rest k v

/-- Python `seasons[k].append(x)` (the key is always present when the
parsers call it). -/
def dictAppend : List (Str × List Str) → Str → Str → List (Str × List Str)
  | [], _, _ => []
  | (k0, v0) :: rest, k, x =>
    if k0 = k then (k0, v0 ++ [x]) :: rest else (k0, v0) :: dictAppend rest k x

/-- A stripped line kept as a player name: non-empty and not starting
with `'='`. -/
def isContent (s : Str) : Bool := (!s.isEmpty) && (!(['='].isPrefixOf s))

/-- The shared loop of the two `parse_roster_txt` functions
(`fetch_game_logs.py` lines 49-63, `fetch_playoff_logs.py` lines 35-45).
The two sources differ in exactly one test: the playoff parser appends a
player line only when `current` is truthy (not `None` **and** not the
empty string), the game-log parser only skips on `None`; `strictTruthy`
selects the playoff behaviour. -/
def parseGoCore (strictTruthy : Bool) :
    List (Str × List Str) → Option Str → List Str →
    List (Str × List Str)
  | d, _, [] => d
  | d, cur, l :: ls =>
    let s := pyStrip l
    if isSeasonHeader s then
      parseGoCore strictTruthy (dictSet d (codeKey s) []) (some (codeKey s)) ls
    else if isContent s then
      match cur with
      | none => parseGoCore strictTruthy d cur ls
      | some k =>
        if strictTruthy && k.isEmpty then parseGoCore strictTruthy d cur ls
        else parseGoCore strictTruthy (dictAppend d k s) cur ls
    else parseGoCore strictTruthy d cur ls

namespace GameLogs

/-- `parse_roster_txt` of `fetch_game_logs.py`: fold the lines with an
empty dict and `current_season = None`. -/
def parse_roster_txt (lines : List Str) : List (Str × List Str) :=
  parseGoCore false [] none lines

end GameLogs

namespace Playoff

/-- `parse_roster_txt` of `fetch_playoff_logs.py`. -/
def parse_roster_txt (lines : List Str) : List (Str × List Str) :=
  parseGoCore true [] none lines

end Playoff

/-- The block of player names C7 assigns to a header: the subsequent
stripped non-empty lines not starting with `'='`, up to the next
`'Season:'` header. -/
def claimedBlock : List Str → List Str
  | [] => []
  | l :: ls =>
    let s := pyStrip l
    if isSeasonHeader s then []
    else if isContent s then s :: claimedBlock ls
    else claimedBlock ls

/-- The remaining lines from the next `'Season:'` header on. -/
def claimedRest : List Str → List Str
  | [] => []
  | l :: ls => if isSeasonHeader (pyStrip l) then l :: ls else claimedRest ls

/-- Worker for `claimedParse`, with gas bounding the recursion (the gas
never runs out when it starts above the number of lines). -/
def claimedParseGo : Nat → List Str → List (Str × List Str)
  | 0, _ => []
  | gas + 1, lines =>
    match lines with
    | [] => []
    | l :: ls =>
      let s := pyStrip l
      if isSeasonHeader s then
        (claimedKey s, claimedBlock ls) :: claimedParseGo gas (claimedRest ls)
      else claimedParseGo gas ls

/-- The mapping C7 describes: one entry per `'Season:'` header, keyed by
the stripped text after the tag, valued by the block of subsequent
player lines up to the next header; lines before the first header are
ignored. -/
def claimedParse (lines : List Str) : List (Str × List Str) :=
  claimedParseGo (lines.length + 1) lines

/-- The season keys of a roster file, in file order (as C7 words them). -/
def hdrKeys (lines : List Str) : List Str :=
  ((lines.map pyStrip).filter (fun s => isSeasonHeader s)).map claimedKey

/-! ### Theorems -/

theorem collapseGo_mem {s : Str} {flag : Bool} {c : Char}
    (h : c ∈ collapseGo flag s) : isSlugChar c = true ∨ c = '_' := by
  induction s generalizing flag with
  | nil => simp [collapseGo] at h
  | cons a as ih =>
    simp only [collapseGo] at h
    by_cases ha : isSlugChar a = true
    · simp [ha] at h
      rcases h with h | h
      · exact Or.inl (h ▸ ha)
      · exact ih h
    · simp [ha] at h
      cases flag with
      | true => simpa using ih h
      | false =>
        simp at h
        rcases h with h | h
        · exact Or.inr h
        · exact ih h

theorem stripUnderscores_subset (s : Str) :
    stripUnderscores s ⊆ s := by
  intro c hc
  unfold stripUnderscores at hc
  rw [List.mem_reverse] at hc
  have h1 := List.dropWhile_subset (l := (s.dropWhile (fun c => c == '_')).reverse)
    (p := fun c => c == '_') hc
  rw [List.mem_reverse] at h1
  exact List.dropWhile_subset _ h1

theorem stripUnderscores_isPre (s : Str) :
    stripUnderscores s <+: s.dropWhile (fun c => c == '_') := by
  unfold stripUnderscores
  have h := (List.dropWhile_suffix (l := (s.dropWhile (fun c => c == '_')).reverse)
    (fun c => c == '_')).reverse
  rwa [List.reverse_reverse] at h

theorem stripUnderscores_head? (s : Str) :
    (stripUnderscores s).head? ≠ some '_' := by
  intro h
  obtain ⟨t, ht⟩ := stripUnderscores_isPre s
  cases hs : stripUnderscores s with
  | nil => rw [hs] at h; simp at h
  | cons c cs =>
    rw [hs] at h ht
    simp only [List.head?_cons, Option.some.injEq] at h
    have hA : (s.dropWhile (fun c => c == '_')).head? = some c := by
      rw [← ht]; rfl
    have hnot := List.head?_dropWhile_not (fun c => c == '_') s
    rw [hA] at hnot
    simp [h] at hnot

theorem stripUnderscores_getLast? (s : Str) :
    (stripUnderscores s).getLast? ≠ some '_' := by
  intro h
  unfold stripUnderscores at h
  rw [List.getLast?_reverse] at h
  have hnot := List.head?_dropWhile_not (fun c => c == '_')
    ((s.dropWhile (fun c => c == '_')).reverse)
  rw [h] at hnot
  simp at hnot

/-- C6: for every input string `slugify` returns a filesystem-safe ASCII
key: only the characters `A`-`Z`, `a`-`z`, `0`-`9` and underscore appear,
the result neither begins nor ends with an underscore, and the three
definitions of `slugify` in the three fetch scripts compute the same
function. -/
theorem slugify_filesystem_safe_and_uniform :
    (∀ s : Str, (∀ c ∈ GameLogs.slugify s, isSlugChar c = true ∨ c = '_') ∧
      (GameLogs.slugify s).head? ≠ some '_' ∧
      (GameLogs.slugify s).getLast? ≠ some '_') ∧
    GameLogs.slugify = Playoff.slugify ∧ Playoff.slugify = Bios.slugify := by
  refine ⟨fun s => ⟨fun c hc => ?_, stripUnderscores_head? _,
    stripUnderscores_getLast? _⟩, rfl, rfl⟩
  exact collapseGo_mem (stripUnderscores_subset _ hc)

/-- Witness for the slugify safety theorem at the concrete name
`" Luka Dona!! "`. -/
theorem slugify_filesystem_safe_and_uniform_witness :
    isSlugChar 'L' = true ∨ 'L' = '_' :=
  (slugify_filesystem_safe_and_uniform.1 (" Luka Dona!! ".toList)).1 'L'
    (by decide)

namespace Playoff

theorem mem_insertDesc {x a : Str} {l : List Str} :
    a ∈ insertDesc x l ↔ a = x ∨ a ∈ l := by
  induction l with
  | nil => simp [insertDesc]
  | cons y ys ih =>
    unfold insertDesc
    by_cases h : startYearD x ≥ startYearD y
    · simp [h]
    · simp only [if_neg h, List.mem_cons, ih]
      tauto

theorem mem_sortByYearDesc {a : Str} {l : List Str} :
    a ∈ sortByYearDesc l ↔ a ∈ l := by
  induction l with
  | nil => simp [sortByYearDesc]
  | cons x xs ih => simp [sortByYearDesc, mem_insertDesc, ih]

theorem pairwise_insertDesc {x : Str} {l : List Str}
    (h : l.Pairwise (fun a b => startYearD a ≥ startYearD b)) :
    (insertDesc x l).Pairwise (fun a b => startYearD a ≥ startYearD b) := by
  induction l with
  | nil => simp [insertDesc]
  | cons y ys ih =>
    unfold insertDesc
    rcases List.pairwise_cons.1 h with ⟨hy, hys⟩
    by_cases hxy : startYearD x ≥ startYearD y
    · rw [if_pos hxy]
      refine List.pairwise_cons.2 ⟨?_, h⟩
      intro b hb
      rcases List.mem_cons.1 hb with rfl | hb
      · exact hxy
      · exact le_trans (hy b hb) hxy
    · rw [if_neg hxy]
      refine List.pairwise_cons.2 ⟨?_, ih hys⟩
      intro b hb
      rcases mem_insertDesc.1 hb with rfl | hb
      · exact le_of_lt (lt_of_not_ge hxy)
      · exact hy b hb

theorem pairwise_sortByYearDesc (l : List Str) :
    (sortByYearDesc l).Pairwise (fun a b => startYearD a ≥ startYearD b) := by
  induction l with
  | nil => simp [sortByYearDesc]
  | cons x xs ih => exact pairwise_insertDesc ih

end Playoff

/-- C10: the two log-fetch scripts restrict processing to hard-coded
windows regardless of roster content: `fetch_game_logs.py` keeps exactly
the roster seasons among `"2022-23"` … `"2010-11"` (descending), and
`fetch_playoff_logs.py` keeps exactly the roster seasons whose starting
year parses to a value between 2015 and 2024, sorted descending by
starting year; all other roster seasons are absent from the processed
list. -/
theorem hardcoded_season_windows :
    (∀ keys : List Str, GameLogs.targetSeasons keys =
      gameLogWindow.filter (fun s => keys.contains s)) ∧
    (∀ (keys : List Str) (s : Str), s ∈ Playoff.filteredSeasons keys ↔
      s ∈ keys ∧ ∃ y : Int, Playoff.startYear s = some y ∧
        2015 ≤ y ∧ y ≤ 2024) ∧
    (∀ keys : List Str, (GameLogs.targetSeasons keys).Pairwise
      (fun a b => Playoff.startYearD a > Playoff.startYearD b)) ∧
    (∀ keys : List Str, (Playoff.filteredSeasons keys).Pairwise
      (fun a b => Playoff.startYearD a ≥ Playoff.startYearD b)) := by
  have hwin : ((List.range 13).map (fun i => 2022 - i)).map GameLogs.seasonStr =
      gameLogWindow := by decide
  refine ⟨fun keys => ?_, fun keys s => ?_, fun keys => ?_, fun keys => ?_⟩
  · unfold GameLogs.targetSeasons
    rw [hwin]
  · unfold Playoff.filteredSeasons
    rw [Playoff.mem_sortByYearDesc, List.mem_filter]
    constructor
    · rintro ⟨hk, hp⟩
      refine ⟨hk, ?_⟩
      cases hy : Playoff.startYear s with
      | none => rw [hy] at hp; simp at hp
      | some y =>
        rw [hy] at hp
        simp only [Bool.and_eq_true, decide_eq_true_eq] at hp
        exact ⟨y, rfl, hp.1, hp.2⟩
    · rintro ⟨hk, y, hy, h1, h2⟩
      refine ⟨hk, ?_⟩
      rw [hy]
      simp [h1, h2]
  · unfold GameLogs.targetSeasons
    rw [hwin]
    exact List.Pairwise.filter _
      (by decide : gameLogWindow.Pairwise
        (fun a b => Playoff.startYearD a > Playoff.startYearD b))
  · exact Playoff.pairwise_sortByYearDesc _

/-- Witness for the season-window theorem: the roster key `"2019-20"` is
kept by the playoff filter, with starting year 2019. -/
theorem hardcoded_season_windows_witness :
    ("2019-20".toList ∈ ["2019-20".toList] ∧ ∃ y : Int,
      Playoff.startYear "2019-20".toList = some y ∧ 2015 ≤ y ∧ y ≤ 2024) :=
  (hardcoded_season_windows.2.1 ["2019-20".toList] "2019-20".toList).1
    (by decide)

theorem findExact_eq_find? (name : Str) (hits : List StaticPlayer) :
    GameLogs.findExact name hits =
      (hits.find? (exactStatic name)).map (fun h => h.id) := by
  induction hits with
  | nil => rfl
  | cons h t ih =>
    unfold GameLogs.findExact
    by_cases hx : exactStatic name h
    · rw [if_pos hx, List.find?_cons_of_pos _ hx]; rfl
    · rw [if_neg hx, List.find?_cons_of_neg _ (by simpa using hx), ih]

theorem exactLoop_eq_find? (normalized : Str) (ps : List DirPlayer) :
    Upload.exactLoop normalized ps =
      (ps.find? (Upload.exactDir normalized)).map (fun p => p.personId) := by
  induction ps with
  | nil => rfl
  | cons p t ih =>
    unfold Upload.exactLoop
    by_cases hx : Upload.exactDir normalized p
    · rw [if_pos hx, List.find?_cons_of_pos _ hx]; rfl
    · rw [if_neg hx, List.find?_cons_of_neg _ (by simpa using hx), ih]

theorem head?_filter_eq_find? {α : Type} (p : α → Bool) (l : List α) :
    (l.filter p).head? = l.find? p := by
  induction l with
  | nil => rfl
  | cons a t ih =>
    by_cases ha : p a
    · rw [List.filter_cons_of_pos ha, List.find?_cons_of_pos _ ha]; rfl
    · rw [List.filter_cons_of_neg (by simpa using ha),
        List.find?_cons_of_neg _ (by simpa using ha), ih]

/-- C9: every player-ID lookup returns `none` exactly when the directory
yields no hit; the id of the first case-insensitive exact match is
returned whenever an exact match exists, and only otherwise the first
fuzzy/partial hit; the three static lookups compute the same function. -/
theorem player_lookup_exact_match_priority :
    (∀ (name : Str) (hits : List StaticPlayer),
       (GameLogs.findPlayerId name hits = none ↔ hits = []) ∧
       GameLogs.findPlayerId name hits = Playoff.findPlayerId name hits ∧
       Playoff.findPlayerId name hits = Bios.playerIdFromName name hits) ∧
    (∀ (name : Str) (hits : List StaticPlayer) (h : StaticPlayer),
       hits.find? (exactStatic name) = some h →
       GameLogs.findPlayerId name hits = some h.id) ∧
    (∀ (name : Str) (hits : List StaticPlayer),
       hits.find? (exactStatic name) = none →
       GameLogs.findPlayerId name hits = hits.head?.map (fun h => h.id)) ∧
    (∀ (name : Str) (ps : List DirPlayer),
       Upload.searchPlayerByName name (some ps) = none ↔
       ∀ p ∈ ps, Upload.exactDir (pyStrip (pyLower name)) p = false ∧
         Upload.partialDir (pyStrip (pyLower name)) p = false) ∧
    (∀ (name : Str) (ps : List DirPlayer) (q : DirPlayer),
       ps.find? (Upload.exactDir (pyStrip (pyLower name))) = some q →
       Upload.searchPlayerByName name (some ps) = some q.personId) ∧
    (∀ (name : Str) (ps : List DirPlayer) (q : DirPlayer),
       ps.find? (Upload.exactDir (pyStrip (pyLower name))) = none →
       ps.find? (Upload.partialDir (pyStrip (pyLower name))) = some q →
       Upload.searchPlayerByName name (some ps) = some q.personId) ∧
    (∀ name : Str, Upload.searchPlayerByName name none = none) := by
  refine ⟨fun name hits => ⟨?_, ?_, ?_⟩, fun name hits h hf => ?_,
    fun name hits hf => ?_, fun name ps => ?_, fun name ps q hf => ?_,
    fun name ps q hne hf => ?_, fun name => rfl⟩
  · cases hits with
    | nil => simp [GameLogs.findPlayerId]
    | cons h0 t =>
      simp only [GameLogs.findPlayerId]
      cases hfe : GameLogs.findExact name (h0 :: t) <;> simp
  · cases hits with
    | nil => rfl
    | cons h0 t =>
      simp only [GameLogs.findPlayerId, Playoff.findPlayerId]
      cases hfe : GameLogs.findExact name (h0 :: t) <;> simp
  · rfl
  · cases hits with
    | nil => simp at hf
    | cons h0 t =>
      simp only [GameLogs.findPlayerId]
      rw [findExact_eq_find?, hf]
      simp
  · cases hits with
    | nil => rfl
    | cons h0 t =>
      simp only [GameLogs.findPlayerId]
      rw [findExact_eq_find?, hf]
      simp
  · rw [Upload.searchPlayerByName]
    by_cases hps : ps = []
    · subst hps; simp
    · rw [if_neg hps]
      simp only [exactLoop_eq_find?]
      cases hfe : ps.find? (Upload.exactDir (pyStrip (pyLower name))) with
      | some q =>
        simp only [Option.map_some']
        constructor
        · intro h; cases h
        · intro hall
          have hq := List.find?_some hfe
          have hmem := List.mem_of_find?_eq_some hfe
          rw [(hall q hmem).1] at hq
          cases hq
      | none =>
        simp only [Option.map_none']
        rw [Upload.partialMatches, ← List.head?_map, List.map_map]
        rw [List.find?_eq_none] at hfe
        constructor
        · intro h p hp
          refine ⟨by simpa using hfe p hp, ?_⟩
          by_contra hpart
          rw [List.head?_map, head?_filter_eq_find?] at h
          have : ps.find? (Upload.partialDir (pyStrip (pyLower name))) ≠ none := by
            rw [ne_eq, List.find?_eq_none]
            push_neg
            exact ⟨p, hp, by simpa using hpart⟩
          cases hfind : ps.find? (Upload.partialDir (pyStrip (pyLower name))) with
          | none => exact this hfind
          | some r => rw [hfind] at h; simp at h
        · intro hall
          rw [List.head?_map, head?_filter_eq_find?]
          have : ps.find? (Upload.partialDir (pyStrip (pyLower name))) = none := by
            rw [List.find?_eq_none]
            intro p hp
            simpa using (hall p hp).2
          rw [this]
          rfl
  · rw [Upload.searchPlayerByName]
    have hps : ps ≠ [] := by
      intro h; subst h; simp at hf
    rw [if_neg hps]
    simp only [exactLoop_eq_find?, hf]
    rfl
  · rw [Upload.searchPlayerByName]
    have hps : ps ≠ [] := by
      intro h; subst h; simp at hf
    rw [if_neg hps]
    simp only [exactLoop_eq_find?, hne]
    simp only [Option.map_none']
    rw [Upload.partialMatches, ← List.head?_map, List.map_map,
      List.head?_map, head?_filter_eq_find?, hf]
    rfl

/-- Witness for the lookup theorem: in a directory holding a fuzzy hit
before an exact hit, the exact match's id (2) is returned. -/
theorem player_lookup_exact_match_priority_witness :
    Upload.searchPlayerByName ("LeBron James".toList)
      (some [⟨"lebron james jr".toList, "james jr, lebron".toList, 1⟩,
             ⟨"LeBron James".toList, "James, LeBron".toList, 2⟩]) = some 2 :=
  player_lookup_exact_match_priority.2.2.2.2.1 ("LeBron James".toList)
    [⟨"lebron james jr".toList, "james jr, lebron".toList, 1⟩,
     ⟨"LeBron James".toList, "James, LeBron".toList, 2⟩]
    ⟨"LeBron James".toList, "James, LeBron".toList, 2⟩ (by decide)

theorem upload_apiLoop_attempts_le (m : Nat) (sk : Bool)
    (o : Nat → ReqOutcome) :
    ∀ gas retries attempt,
      (Upload.apiLoop m sk o gas retries attempt).2 ≤ m + 1 - retries := by
  intro gas
  induction gas with
  | zero => intro r a; simp [Upload.apiLoop]
  | succ g ih =>
    intro retries attempt
    by_cases hg : retries ≤ m
    · cases ho : o attempt with
      | ok => simp [Upload.apiLoop, hg, ho]; omega
      | redirect =>
        have := ih (retries + 1) (attempt + 1)
        simp [Upload.apiLoop, hg, ho]
        omega
      | httpError s =>
        have := ih (retries + 1) (attempt + 1)
        simp only [Upload.apiLoop, hg, ho, if_true]
        split
        · simp; omega
        · split
          · simp; omega
          · split
            · simp; omega
            · simp; omega
      | netError =>
        have := ih (retries + 1) (attempt + 1)
        simp only [Upload.apiLoop, hg, ho, if_true]
        split
        · simp; omega
        · simp; omega
    · simp [Upload.apiLoop, hg]

theorem simplified_apiLoop_attempts_le (m : Nat) (o : Nat → ReqOutcome) :
    ∀ gas retries attempt,
      (Simplified.apiLoop m o gas retries attempt).2 ≤ m + 1 - retries := by
  intro gas
  induction gas with
  | zero => intro r a; simp [Simplified.apiLoop]
  | succ g ih =>
    intro retries attempt
    by_cases hg : retries ≤ m
    · cases ho : o attempt with
      | ok => simp [Simplified.apiLoop, hg, ho]; omega
      | redirect =>
        have := ih (retries + 1) (attempt + 1)
        simp only [Simplified.apiLoop, hg, ho, if_true]
        split
        · simp; omega
        · simp; omega
      | httpError s =>
        have := ih (retries + 1) (attempt + 1)
        simp only [Simplified.apiLoop, hg, ho, if_true]
        split
        · simp; omega
        · simp; omega
      | netError =>
        have := ih (retries + 1) (attempt + 1)
        simp only [Simplified.apiLoop, hg, ho, if_true]
        split
        · simp; omega
        · simp; omega
    · simp [Simplified.apiLoop, hg]

theorem upload_apiLoop_none_of_fail (m : Nat) (sk : Bool)
    (o : Nat → ReqOutcome) (hfail : ∀ i, o i ≠ ReqOutcome.ok) :
    ∀ gas retries attempt,
      (Upload.apiLoop m sk o gas retries attempt).1 = none := by
  intro gas
  induction gas with
  | zero => intro r a; simp [Upload.apiLoop]
  | succ g ih =>
    intro retries attempt
    by_cases hg : retries ≤ m
    · cases ho : o attempt with
      | ok => exact absurd ho (hfail attempt)
      | redirect =>
        simp [Upload.apiLoop, hg, ho]
        exact ih (retries + 1) (attempt + 1)
      | httpError s =>
        have := ih (retries + 1) (attempt + 1)
        simp only [Upload.apiLoop, hg, ho, if_true]
        split
        · rfl
        · split
          · rfl
          · split
            · simpa using this
            · rfl
      | netError =>
        have := ih (retries + 1) (attempt + 1)
        simp only [Upload.apiLoop, hg, ho, if_true]
        split
        · simpa using this
        · rfl
    · simp [Upload.apiLoop, hg]

theorem simplified_apiLoop_none_of_fail (m : Nat) (o : Nat → ReqOutcome)
    (hfail : ∀ i, o i ≠ ReqOutcome.ok) :
    ∀ gas retries attempt,
      (Simplified.apiLoop m o gas retries attempt).1 = none := by
  intro gas
  induction gas with
  | zero => intro r a; simp [Simplified.apiLoop]
  | succ g ih =>
    intro retries attempt
    by_cases hg : retries ≤ m
    · cases ho : o attempt with
      | ok => exact absurd ho (hfail attempt)
      | redirect =>
        have := ih (retries + 1) (attempt + 1)
        simp only [Simplified.apiLoop, hg, ho, if_true]
        split
        · simpa using this
        · rfl
      | httpError s =>
        have := ih (retries + 1) (attempt + 1)
        simp only [Simplified.apiLoop, hg, ho, if_true]
        split
        · simpa using this
        · rfl
      | netError =>
        have := ih (retries + 1) (attempt + 1)
        simp only [Simplified.apiLoop, hg, ho, if_true]
        split
        · simpa using this
        · rfl
    · simp [Simplified.apiLoop, hg]

theorem fetchAndSave_attempts_le (name : Str) (fe : Bool) (pid : Option Nat)
    (oracle : Nat → AttemptOutcome) :
    (Playoff.fetchAndSave name fe pid oracle).attempts ≤ 2 := by
  cases fe with
  | true => simp [Playoff.fetchAndSave]
  | false =>
    cases pid with
    | none => simp [Playoff.fetchAndSave]
    | some p =>
      cases h0 : oracle 0 with
      | ok rows => cases rows <;> simp [Playoff.fetchAndSave, h0]
      | exc t m =>
        cases t with
        | false => simp [Playoff.fetchAndSave, h0]
        | true =>
          cases h1 : oracle 1 with
          | ok rows => cases rows <;> simp [Playoff.fetchAndSave, h0, h1]
          | exc t2 m2 => cases t2 <;> simp [Playoff.fetchAndSave, h0, h1]

/-- C1 counterexample: with the `max_retries = 3` that both uploader
`main`s pass to `NBADataFetcher`, a request that keeps failing is issued
4 times by `_make_api_request` — three retries, not "at most once" — and
only then gives up. -/
theorem single_retry_claim_counterexample :
    (Upload.makeApiRequest 3 false (fun _ => ReqOutcome.netError)).2 = 4 ∧
    (Simplified.makeApiRequest 3 (fun _ => ReqOutcome.netError)).2 = 4 ∧
    ¬ (Upload.makeApiRequest 3 false (fun _ => ReqOutcome.netError)).2 ≤ 2 ∧
    (Upload.makeApiRequest 3 false (fun _ => ReqOutcome.netError)).1 = none := by
  decide

/-- C1 amended: in the log-fetch workers a request is retried at most
once — only on timeout, after a fixed 60-second backoff — and the second
timeout reports failure (`fetch_game_logs.py` never retries); in the
uploaders `_make_api_request` retries a failed request up to
`max_retries` more times (at most `max_retries + 1` requests) and returns
`None` when every attempt fails. -/
theorem retry_policy_amended :
    (∀ (name : Str) (fe : Bool) (pid : Option Nat)
       (oracle : Nat → AttemptOutcome),
       (Playoff.fetchAndSave name fe pid oracle).attempts ≤ 2) ∧
    (∀ (name : Str) (fe : Bool) (pid : Option Nat)
       (oracle : Nat → AttemptOutcome),
       (Playoff.fetchAndSave name fe pid oracle).attempts = 2 →
       (∃ m, oracle 0 = AttemptOutcome.exc true m) ∧
       (Playoff.fetchAndSave name fe pid oracle).retryBackoffs = [60]) ∧
    (∀ (name : Str) (p : Nat) (oracle : Nat → AttemptOutcome) (m m2 : Str),
       oracle 0 = AttemptOutcome.exc true m →
       oracle 1 = AttemptOutcome.exc true m2 →
       Playoff.fetchAndSave name false (some p) oracle =
         ⟨name, false, "timeout".toList, 2, false, [60]⟩) ∧
    (∀ (name : Str) (pid : Option Nat) (oracle : Nat → AttemptOutcome),
       (GameLogs.fetchSave name pid oracle).attempts ≤ 1) ∧
    (∀ (m : Nat) (sk : Bool) (oracle : Nat → ReqOutcome),
       (Upload.makeApiRequest m sk oracle).2 ≤ m + 1) ∧
    (∀ (m : Nat) (oracle : Nat → ReqOutcome),
       (Simplified.makeApiRequest m oracle).2 ≤ m + 1) ∧
    (∀ (m : Nat) (sk : Bool) (oracle : Nat → ReqOutcome),
       (∀ i, oracle i ≠ ReqOutcome.ok) →
       (Upload.makeApiRequest m sk oracle).1 = none) ∧
    (∀ (m : Nat) (oracle : Nat → ReqOutcome),
       (∀ i, oracle i ≠ ReqOutcome.ok) →
       (Simplified.makeApiRequest m oracle).1 = none) := by
  refine ⟨fetchAndSave_attempts_le, ?_, ?_, ?_, ?_, ?_, ?_, ?_⟩
  · intro name fe pid oracle h2
    cases fe with
    | true => simp [Playoff.fetchAndSave] at h2
    | false =>
      cases pid with
      | none => simp [Playoff.fetchAndSave] at h2
      | some p =>
        cases h0 : oracle 0 with
        | ok rows => cases rows <;> simp [Playoff.fetchAndSave, h0] at h2
        | exc t m =>
          cases t with
          | false => simp [Playoff.fetchAndSave, h0] at h2
          | true =>
            refine ⟨⟨m, rfl⟩, ?_⟩
            cases h1 : oracle 1 with
            | ok rows => cases rows <;> simp [Playoff.fetchAndSave, h0, h1]
            | exc t2 m2 => cases t2 <;> simp [Playoff.fetchAndSave, h0, h1]
  · intro name p oracle m m2 h0 h1
    simp [Playoff.fetchAndSave, h0, h1]
  · intro name pid oracle
    cases pid with
    | none => simp [GameLogs.fetchSave]
    | some p =>
      cases h0 : oracle 0 with
      | ok rows => cases rows <;> simp [GameLogs.fetchSave, h0]
      | exc t m => simp [GameLogs.fetchSave, h0]
  · intro m sk oracle
    have := upload_apiLoop_attempts_le m sk oracle (m + 2) 0 0
    simpa [Upload.makeApiRequest] using this
  · intro m oracle
    have := simplified_apiLoop_attempts_le m oracle (m + 2) 0 0
    simpa [Simplified.makeApiRequest] using this
  · intro m sk oracle hfail
    exact upload_apiLoop_none_of_fail m sk oracle hfail (m + 2) 0 0
  · intro m oracle hfail
    exact simplified_apiLoop_none_of_fail m oracle hfail (m + 2) 0 0

/-- Witness for the amended retry policy: two consecutive timeouts make
the playoff worker fail with status `timeout` after its single fixed
60-second backoff. -/
theorem retry_policy_amended_witness :
    Playoff.fetchAndSave ("X".toList) false (some 1)
        (fun _ => AttemptOutcome.exc true []) =
      ⟨"X".toList, false, "timeout".toList, 2, false, [60]⟩ :=
  retry_policy_amended.2.2.1 ("X".toList) 1
    (fun _ => AttemptOutcome.exc true []) [] [] rfl rfl

theorem fetchAndSave_of_exists (name : Str) (pid : Option Nat)
    (oracle : Nat → AttemptOutcome) :
    Playoff.fetchAndSave name true pid oracle =
      ⟨name, true, "already".toList, 0, false, []⟩ := rfl

theorem playoff_seqRun_length (outDir : Str) (pids : Str → Option Nat)
    (oracles : Str → Nat → AttemptOutcome) :
    ∀ (tasks fs : List Str),
      (Playoff.seqRun outDir pids oracles fs tasks).2.length = tasks.length := by
  intro tasks
  induction tasks with
  | nil => intro fs; rfl
  | cons n ns ih =>
    intro fs
    simp only [Playoff.seqRun, List.length_cons]
    rw [ih]

theorem playoff_seqRun_attempts (outDir : Str) (pids : Str → Option Nat)
    (oracles : Str → Nat → AttemptOutcome) :
    ∀ (tasks fs : List Str),
      (((Playoff.seqRun outDir pids oracles fs tasks).2.map
        (fun r => r.attempts)).sum) ≤ 2 * tasks.length := by
  intro tasks
  induction tasks with
  | nil => intro fs; simp [Playoff.seqRun]
  | cons n ns ih =>
    intro fs
    simp only [Playoff.seqRun, List.map_cons, List.sum_cons, List.length_cons]
    have h1 := fetchAndSave_attempts_le n
      (decide (Playoff.taskPath outDir n ∈ fs)) (pids n) (oracles n)
    have h2 := ih (if (Playoff.fetchAndSave n
      (decide (Playoff.taskPath outDir n ∈ fs)) (pids n) (oracles n)).wrote
      then Playoff.taskPath outDir n :: fs else fs)
    omega

theorem playoff_seqRun_fs_mem (outDir : Str) (pids : Str → Option Nat)
    (oracles : Str → Nat → AttemptOutcome) :
    ∀ (tasks fs : List Str),
      tasks.Pairwise
        (fun a b => Playoff.taskPath outDir a ≠ Playoff.taskPath outDir b) →
      ∀ q, q ∈ (Playoff.seqRun outDir pids oracles fs tasks).1 ↔
        q ∈ fs ∨ ∃ n ∈ tasks, q = Playoff.taskPath outDir n ∧
          Playoff.taskPath outDir n ∉ fs ∧
          Playoff.wouldWrite pids oracles n = true := by
  intro tasks
  induction tasks with
  | nil => intro fs hpw q; simp [Playoff.seqRun]
  | cons n ns ih =>
    intro fs hpw q
    rcases List.pairwise_cons.1 hpw with ⟨hn, hns⟩
    by_cases hex : Playoff.taskPath outDir n ∈ fs
    · rw [show (Playoff.seqRun outDir pids oracles fs (n :: ns)).1 =
        (Playoff.seqRun outDir pids oracles fs ns).1 by
          simp [Playoff.seqRun, hex, fetchAndSave_of_exists]]
      rw [ih fs hns q]
      constructor
      · rintro (h | ⟨t, ht, rfl, hnf, hw⟩)
        · exact Or.inl h
        · exact Or.inr ⟨t, List.mem_cons_of_mem _ ht, rfl, hnf, hw⟩
      · rintro (h | ⟨t, ht, rfl, hnf, hw⟩)
        · exact Or.inl h
        · rcases List.mem_cons.1 ht with rfl | ht
          · exact absurd hex hnf
          · exact Or.inr ⟨t, ht, rfl, hnf, hw⟩
    · by_cases hw : Playoff.wouldWrite pids oracles n = true
      · rw [show (Playoff.seqRun outDir pids oracles fs (n :: ns)).1 =
          (Playoff.seqRun outDir pids oracles
            (Playoff.taskPath outDir n :: fs) ns).1 by
            simp only [Playoff.seqRun, hex, decide_eq_true_eq]
            simp [Playoff.wouldWrite] at hw
            simp [hex, hw]]
        rw [ih (Playoff.taskPath outDir n :: fs) hns q]
        constructor
        · rintro (h | ⟨t, ht, rfl, hnf, htw⟩)
          · rcases List.mem_cons.1 h with rfl | h
            · exact Or.inr ⟨n, List.mem_cons_self n ns, rfl, hex, hw⟩
            · exact Or.inl h
          · refine Or.inr ⟨t, List.mem_cons_of_mem _ ht, rfl, ?_, htw⟩
            intro hmem
            exact hnf (List.mem_cons_of_mem _ hmem)
        · rintro (h | ⟨t, ht, rfl, hnf, htw⟩)
          · exact Or.inl (List.mem_cons_of_mem _ h)
          · rcases List.mem_cons.1 ht with rfl | ht
            · exact Or.inl (List.mem_cons_self _ _)
            · refine Or.inr ⟨t, ht, rfl, ?_, htw⟩
              intro hmem
              rcases List.mem_cons.1 hmem with heq | hmem
              · exact hn t ht heq.symm
              · exact hnf hmem
      · rw [show (Playoff.seqRun outDir pids oracles fs (n :: ns)).1 =
          (Playoff.seqRun outDir pids oracles fs ns).1 by
            simp only [Playoff.seqRun, hex, decide_eq_true_eq]
            simp [Playoff.wouldWrite] at hw
            simp [hex, hw]]
        rw [ih fs hns q]
        constructor
        · rintro (h | ⟨t, ht, rfl, hnf, htw⟩)
          · exact Or.inl h
          · exact Or.inr ⟨t, List.mem_cons_of_mem _ ht, rfl, hnf, htw⟩
        · rintro (h | ⟨t, ht, rfl, hnf, htw⟩)
          · exact Or.inl h
          · rcases List.mem_cons.1 ht with rfl | ht
            · exact absurd htw hw
            · exact Or.inr ⟨t, ht, rfl, hnf, htw⟩

theorem game_seqRun_fs_mem (outDir : Str) (pids : Str → Option Nat)
    (oracles : Str → Nat → AttemptOutcome) :
    ∀ (tasks fs : List Str) (q : Str),
      q ∈ (GameLogs.seqRun outDir pids oracles fs tasks).1 ↔
        q ∈ fs ∨ ∃ n ∈ tasks, q = GameLogs.taskPath outDir n ∧
          (GameLogs.fetchSave n (pids n) (oracles n)).wrote = true := by
  intro tasks
  induction tasks with
  | nil => intro fs q; simp [GameLogs.seqRun]
  | cons n ns ih =>
    intro fs q
    by_cases hw : (GameLogs.fetchSave n (pids n) (oracles n)).wrote = true
    · rw [show (GameLogs.seqRun outDir pids oracles fs (n :: ns)).1 =
        (GameLogs.seqRun outDir pids oracles
          (GameLogs.taskPath outDir n :: fs) ns).1 by
          simp [GameLogs.seqRun, hw]]
      rw [ih (GameLogs.taskPath outDir n :: fs) q]
      constructor
      · rintro (h | ⟨t, ht, rfl, htw⟩)
        · rcases List.mem_cons.1 h with rfl | h
          · exact Or.inr ⟨n, List.mem_cons_self n ns, rfl, hw⟩
          · exact Or.inl h
        · exact Or.inr ⟨t, List.mem_cons_of_mem _ ht, rfl, htw⟩
      · rintro (h | ⟨t, ht, rfl, htw⟩)
        · exact Or.inl (List.mem_cons_of_mem _ h)
        · rcases List.mem_cons.1 ht with rfl | ht
          · exact Or.inl (List.mem_cons_self _ _)
          · exact Or.inr ⟨t, ht, rfl, htw⟩
    · rw [show (GameLogs.seqRun outDir pids oracles fs (n :: ns)).1 =
        (GameLogs.seqRun outDir pids oracles fs ns).1 by
          simp [GameLogs.seqRun, hw]]
      rw [ih fs q]
      constructor
      · rintro (h | ⟨t, ht, rfl, htw⟩)
        · exact Or.inl h
        · exact Or.inr ⟨t, List.mem_cons_of_mem _ ht, rfl, htw⟩
      · rintro (h | ⟨t, ht, rfl, htw⟩)
        · exact Or.inl h
        · rcases List.mem_cons.1 ht with rfl | ht
          · exact absurd htw hw
          · exact Or.inr ⟨t, ht, rfl, htw⟩

theorem taskPath_eq_iff (outDir n1 n2 : Str) :
    GameLogs.taskPath outDir n1 = GameLogs.taskPath outDir n2 ↔
      GameLogs.slugify n1 = GameLogs.slugify n2 := by
  unfold GameLogs.taskPath
  constructor
  · intro h
    have h1 := List.append_cancel_left h
    simp only [List.cons.injEq, true_and] at h1
    exact List.append_cancel_right h1
  · intro h; rw [h]

/-- C5 counterexample: the two distinct roster names `"A B"` and `"A.B"`
have the same slug, so in one season two tasks write the same CSV file
(in `fetch_game_logs.py` both actually write it). -/
theorem independent_tasks_counterexample :
    ("A B".toList : Str) ≠ "A.B".toList ∧
    GameLogs.taskPath ("player_logs/2022-23".toList) ("A B".toList) =
      GameLogs.taskPath ("player_logs/2022-23".toList) ("A.B".toList) ∧
    (GameLogs.fetchSave ("A B".toList) (some 1)
      (fun _ => AttemptOutcome.ok 1)).wrote = true ∧
    (GameLogs.fetchSave ("A.B".toList) (some 2)
      (fun _ => AttemptOutcome.ok 1)).wrote = true := by
  decide

/-- C5 amended: two tasks target the same file exactly when their names
share a slug; provided the names of a season have pairwise-distinct task
paths, the set of CSV files present after the season run is independent
of the order in which the tasks execute (for `fetch_game_logs.py`, whose
tasks never read the filesystem, no proviso is needed). -/
theorem independent_tasks_amended :
    (∀ outDir n1 n2 : Str,
       GameLogs.taskPath outDir n1 = GameLogs.taskPath outDir n2 ↔
         GameLogs.slugify n1 = GameLogs.slugify n2) ∧
    (∀ (outDir : Str) (pids : Str → Option Nat)
       (oracles : Str → Nat → AttemptOutcome) (tasks tasks2 fs : List Str),
       tasks.Pairwise
         (fun a b => Playoff.taskPath outDir a ≠ Playoff.taskPath outDir b) →
       tasks2.Perm tasks →
       ∀ q, q ∈ (Playoff.seqRun outDir pids oracles fs tasks2).1 ↔
            q ∈ (Playoff.seqRun outDir pids oracles fs tasks).1) ∧
    (∀ (outDir : Str) (pids : Str → Option Nat)
       (oracles : Str → Nat → AttemptOutcome) (tasks tasks2 fs : List Str),
       tasks2.Perm tasks →
       ∀ q, q ∈ (GameLogs.seqRun outDir pids oracles fs tasks2).1 ↔
            q ∈ (GameLogs.seqRun outDir pids oracles fs tasks).1) := by
  refine ⟨taskPath_eq_iff, ?_, ?_⟩
  · intro outDir pids oracles tasks tasks2 fs hpw hperm q
    have hpw2 : tasks2.Pairwise
        (fun a b => Playoff.taskPath outDir a ≠ Playoff.taskPath outDir b) :=
      (List.Perm.pairwise_iff (fun h e => h e.symm) hperm).2 hpw
    rw [playoff_seqRun_fs_mem outDir pids oracles tasks2 fs hpw2 q,
      playoff_seqRun_fs_mem outDir pids oracles tasks fs hpw q]
    exact or_congr Iff.rfl
      (exists_congr fun n => and_congr (hperm.mem_iff) Iff.rfl)
  · intro outDir pids oracles tasks tasks2 fs hperm q
    rw [game_seqRun_fs_mem outDir pids oracles tasks2 fs q,
      game_seqRun_fs_mem outDir pids oracles tasks fs q]
    exact or_congr Iff.rfl
      (exists_congr fun n => and_congr (hperm.mem_iff) Iff.rfl)

/-- Witness for the amended task-independence theorem: swapping two
distinct-slug tasks leaves the final file set unchanged. -/
theorem independent_tasks_amended_witness :
    ∀ q, q ∈ (Playoff.seqRun ("d".toList) (fun _ => some 5)
        (fun _ _ => AttemptOutcome.ok 3) []
        ["B A".toList, "A B".toList]).1 ↔
      q ∈ (Playoff.seqRun ("d".toList) (fun _ => some 5)
        (fun _ _ => AttemptOutcome.ok 3) []
        ["A B".toList, "B A".toList]).1 :=
  independent_tasks_amended.2.1 ("d".toList) (fun _ => some 5)
    (fun _ _ => AttemptOutcome.ok 3)
    ["A B".toList, "B A".toList] ["B A".toList, "A B".toList] []
    (by decide) (List.Perm.swap _ _ _)

/-- C4: when the slug-keyed CSV already exists, the playoff worker
returns `(name, True, 'already')` with no HTTP request and no write, and
a run over such a player leaves the filesystem unchanged. -/
theorem existing_csv_short_circuit :
    (∀ (name : Str) (pid : Option Nat) (oracle : Nat → AttemptOutcome),
       Playoff.fetchAndSave name true pid oracle =
         ⟨name, true, "already".toList, 0, false, []⟩) ∧
    (∀ (outDir : Str) (pids : Str → Option Nat)
       (oracles : Str → Nat → AttemptOutcome) (fs : List Str) (name : Str),
       Playoff.taskPath outDir name ∈ fs →
       Playoff.seqRun outDir pids oracles fs [name] =
         (fs, [⟨name, true, "already".toList, 0, false, []⟩])) := by
  refine ⟨fun name pid oracle => rfl,
    fun outDir pids oracles fs name h => ?_⟩
  simp [Playoff.seqRun, h, fetchAndSave_of_exists]

/-- Witness for the skip theorem: re-running a player whose CSV exists
leaves the filesystem as it was and reports `'already'`. -/
theorem existing_csv_short_circuit_witness :
    Playoff.seqRun ("playoff_logs/2023-24".toList) (fun _ => none)
        (fun _ _ => AttemptOutcome.ok 0)
        [Playoff.taskPath ("playoff_logs/2023-24".toList)
          ("Jimmy Butler".toList)]
        ["Jimmy Butler".toList] =
      ([Playoff.taskPath ("playoff_logs/2023-24".toList)
          ("Jimmy Butler".toList)],
       [⟨"Jimmy Butler".toList, true, "already".toList, 0, false, []⟩]) :=
  existing_csv_short_circuit.2 _ _ _ _ _ (by decide)

/-- C8: every worker issues a bounded number of HTTP requests (at most 2
in `fetch_and_save`, at most `max_retries + 1` in `_make_api_request`),
and a season run performs exactly one task per roster entry with at most
`2 · |roster|` requests in total — the batch jobs terminate. -/
theorem batch_jobs_bounded_work :
    (∀ (name : Str) (fe : Bool) (pid : Option Nat)
       (oracle : Nat → AttemptOutcome),
       (Playoff.fetchAndSave name fe pid oracle).attempts ≤ 2) ∧
    (∀ (m : Nat) (sk : Bool) (oracle : Nat → ReqOutcome),
       (Upload.makeApiRequest m sk oracle).2 ≤ m + 1) ∧
    (∀ (m : Nat) (oracle : Nat → ReqOutcome),
       (Simplified.makeApiRequest m oracle).2 ≤ m + 1) ∧
    (∀ (outDir : Str) (pids : Str → Option Nat)
       (oracles : Str → Nat → AttemptOutcome) (tasks fs : List Str),
       (Playoff.seqRun outDir pids oracles fs tasks).2.length =
         tasks.length ∧
       ((Playoff.seqRun outDir pids oracles fs tasks).2.map
         (fun r => r.attempts)).sum ≤ 2 * tasks.length) := by
  refine ⟨fetchAndSave_attempts_le, ?_, ?_, ?_⟩
  · intro m sk oracle
    have := upload_apiLoop_attempts_le m sk oracle (m + 2) 0 0
    simpa [Upload.makeApiRequest] using this
  · intro m oracle
    have := simplified_apiLoop_attempts_le m oracle (m + 2) 0 0
    simpa [Simplified.makeApiRequest] using this
  · intro outDir pids oracles tasks fs
    exact ⟨playoff_seqRun_length outDir pids oracles tasks fs,
      playoff_seqRun_attempts outDir pids oracles tasks fs⟩

/-- C2: once `fetch_all_players` has succeeded the directory is cached —
every later `fetch_all_players` call without `force_refresh`, and every
`search_player_by_name` call, returns that same in-memory list and issues
no further request to the `commonallplayers` endpoint. -/
theorem all_players_fetched_once :
    (∀ (st : Upload.FetcherState) (ps : List DirPlayer)
       (resp : Option (List DirPlayer)),
       st.allPlayersCache = some ps →
       Upload.fetchAllPlayers st false resp = (some ps, st, 0)) ∧
    (∀ (st : Upload.FetcherState) (resp : Option (List DirPlayer))
       (ps2 : List DirPlayer) (st2 : Upload.FetcherState) (n : Nat),
       Upload.fetchAllPlayers st false resp = (some ps2, st2, n) →
       st2.allPlayersCache = some ps2) ∧
    (∀ (st : Upload.FetcherState) (ps : List DirPlayer) (name : Str)
       (resp : Option (List DirPlayer)),
       st.allPlayersCache = some ps →
       Upload.searchPlayerByNameSt st name resp =
         (Upload.searchPlayerByName name (some ps), st, 0)) := by
  refine ⟨?_, ?_, ?_⟩
  · intro st ps resp hc
    simp [Upload.fetchAllPlayers, hc]
  · intro st resp ps2 st2 n h
    cases hc : st.allPlayersCache with
    | some cached =>
      simp [Upload.fetchAllPlayers, hc] at h
      rcases h with ⟨h1, h2, h3⟩
      rw [← h2, hc, h1]
    | none =>
      cases resp with
      | none => simp [Upload.fetchAllPlayers, hc] at h
      | some rows =>
        cases rows with
        | nil => simp [Upload.fetchAllPlayers, hc] at h
        | cons r rs =>
          simp [Upload.fetchAllPlayers, hc] at h
          rcases h with ⟨h1, h2, h3⟩
          rw [← h2]
          simp [← h1]
  · intro st ps name resp hc
    simp [Upload.searchPlayerByNameSt, Upload.fetchAllPlayers, hc]

/-- Witness for the cache theorem: with a populated cache, a search
issues zero directory requests irrespective of what the network would
answer. -/
theorem all_players_fetched_once_witness :
    Upload.searchPlayerByNameSt ⟨some [⟨"LeBron James".toList,
        "James, LeBron".toList, 2⟩]⟩ ("LeBron James".toList) none =
      (Upload.searchPlayerByName ("LeBron James".toList)
        (some [⟨"LeBron James".toList, "James, LeBron".toList, 2⟩]),
       ⟨some [⟨"LeBron James".toList, "James, LeBron".toList, 2⟩]⟩, 0) :=
  all_players_fetched_once.2.2 _ _ _ none rfl

theorem self_mem_upsertOn {R K : Type} [DecidableEq K] (key : R → K)
    (r : R) : ∀ t : List R, r ∈ upsertOn key r t := by
  intro t
  induction t with
  | nil => simp [upsertOn]
  | cons x xs ih =>
    unfold upsertOn
    split
    · exact List.mem_cons_self _ _
    · exact List.mem_cons_of_mem _ ih

theorem mem_upsertOn {R K : Type} [DecidableEq K] {key : R → K}
    {r b : R} : ∀ {t : List R}, b ∈ upsertOn key r t → b = r ∨ b ∈ t := by
  intro t
  induction t with
  | nil => intro h; simpa [upsertOn] using h
  | cons x xs ih =>
    intro h
    unfold upsertOn at h
    split at h
    · rcases List.mem_cons.1 h with rfl | h
      · exact Or.inl rfl
      · exact Or.inr (List.mem_cons_of_mem _ h)
    · rcases List.mem_cons.1 h with rfl | h
      · exact Or.inr (List.mem_cons_self _ _)
      · rcases ih h with rfl | h
        · exact Or.inl rfl
        · exact Or.inr (List.mem_cons_of_mem _ h)

theorem upsertOn_pairwise {R K : Type} [DecidableEq K] (key : R → K)
    (r : R) : ∀ t : List R,
      t.Pairwise (fun a b => key a ≠ key b) →
      (upsertOn key r t).Pairwise (fun a b => key a ≠ key b) := by
  intro t
  induction t with
  | nil => intro h; simp [upsertOn]
  | cons x xs ih =>
    intro h
    rcases List.pairwise_cons.1 h with ⟨hx, hxs⟩
    unfold upsertOn
    split
    · rename_i heq
      refine List.pairwise_cons.2 ⟨?_, hxs⟩
      intro b hb
      rw [← heq]
      exact hx b hb
    · rename_i hne
      refine List.pairwise_cons.2 ⟨?_, ih hxs⟩
      intro b hb
      rcases mem_upsertOn hb with rfl | hb
      · exact hne
      · exact hx b hb

theorem upsertOn_filter_key {R K : Type} [DecidableEq K] (key : R → K)
    (r : R) : ∀ t : List R,
      t.Pairwise (fun a b => key a ≠ key b) →
      (upsertOn key r t).filter (fun x => decide (key x = key r)) = [r] := by
  intro t
  induction t with
  | nil => simp [upsertOn]
  | cons x xs ih =>
    intro h
    rcases List.pairwise_cons.1 h with ⟨hx, hxs⟩
    unfold upsertOn
    split
    · rename_i heq
      rw [List.filter_cons_of_pos (by simp)]
      rw [List.filter_eq_nil_iff.2 ?_]
      intro b hb
      simp only [decide_eq_true_eq]
      rw [← heq]
      exact fun e => hx b hb e.symm
    · rename_i hne
      rw [List.filter_cons_of_neg (by simpa using hne)]
      exact ih hxs

theorem upsertOn_length_of_mem {R K : Type} [DecidableEq K] (key : R → K)
    (r : R) : ∀ t : List R, key r ∈ t.map key →
      (upsertOn key r t).length = t.length := by
  intro t
  induction t with
  | nil => intro h; simp at h
  | cons x xs ih =>
    intro h
    unfold upsertOn
    split
    · simp
    · rename_i hne
      simp only [List.length_cons]
      rw [ih ?_]
      rcases List.mem_map.1 h with ⟨b, hb, hkb⟩
      rcases List.mem_cons.1 hb with rfl | hb
      · exact absurd hkb hne
      · exact List.mem_map.2 ⟨b, hb, hkb⟩

theorem upsertOn_twice {R K : Type} [DecidableEq K] (key : R → K)
    (r1 r2 : R) (t : List R)
    (hpw : t.Pairwise (fun a b => key a ≠ key b))
    (hk : key r1 = key r2) :
    (upsertOn key r2 (upsertOn key r1 t)).filter
      (fun x => decide (key x = key r2)) = [r2] ∧
    (upsertOn key r2 (upsertOn key r1 t)).length =
      (upsertOn key r1 t).length := by
  constructor
  · exact upsertOn_filter_key key r2 _ (upsertOn_pairwise key r1 t hpw)
  · apply upsertOn_length_of_mem
    rw [← hk]
    exact List.mem_map_of_mem key (self_mem_upsertOn key r1 t)

/-- C3: every remote write of the uploaders is an upsert keyed on
`player_id` — each formatted row carries the player's unique id in its
`player_id` column, and storing data for the same player twice leaves
exactly one row for that `player_id` (holding the second payload) instead
of inserting a second row. -/
theorem remote_writes_upsert_by_player_id :
    (∀ (d : PyDict) (now : Str),
       (Upload.formatBasicInfo d now).player_id =
         pyGet d "PERSON_ID".toList) ∧
    (∀ (pid : Nat) (d : PyDict) (now : Str),
       (Upload.formatCurrentStats pid d now).player_id = pid ∧
       (Upload.formatCareerStats pid d now).player_id = pid ∧
       (Upload.formatSeasonHighs pid d now).player_id = pid) ∧
    (∀ (d : PyDict) (hs now : Str),
       (Simplified.formatBasicInfo d hs now).player_id =
         pyGet d "PERSON_ID".toList) ∧
    (∀ (t : List Upload.BasicInfoRow) (d1 d2 : PyDict) (now1 now2 : Str),
       t.Pairwise (fun a b => a.player_id ≠ b.player_id) →
       pyGet d1 "PERSON_ID".toList = pyGet d2 "PERSON_ID".toList →
       (Upload.store_player_basic_info
           (Upload.store_player_basic_info t d1 now1) d2 now2).filter
         (fun r => decide (r.player_id =
           (Upload.formatBasicInfo d2 now2).player_id)) =
         [Upload.formatBasicInfo d2 now2] ∧
       (Upload.store_player_basic_info
           (Upload.store_player_basic_info t d1 now1) d2 now2).length =
         (Upload.store_player_basic_info t d1 now1).length) ∧
    (∀ (t : List Upload.CurrentStatsRow) (pid : Nat) (d1 d2 : PyDict)
       (now1 now2 : Str),
       t.Pairwise (fun a b => a.player_id ≠ b.player_id) →
       (Upload.store_player_current_stats
           (Upload.store_player_current_stats t pid d1 now1)
           pid d2 now2).filter (fun r => decide (r.player_id = pid)) =
         [Upload.formatCurrentStats pid d2 now2] ∧
       (Upload.store_player_current_stats
           (Upload.store_player_current_stats t pid d1 now1)
           pid d2 now2).length =
         (Upload.store_player_current_stats t pid d1 now1).length) ∧
    (∀ (t : List Upload.CareerStatsRow) (pid : Nat) (d1 d2 : PyDict)
       (now1 now2 : Str),
       t.Pairwise (fun a b => a.player_id ≠ b.player_id) →
       (Upload.store_player_career_stats
           (Upload.store_player_career_stats t pid d1 now1)
           pid d2 now2).filter (fun r => decide (r.player_id = pid)) =
         [Upload.formatCareerStats pid d2 now2] ∧
       (Upload.store_player_career_stats
           (Upload.store_player_career_stats t pid d1 now1)
           pid d2 now2).length =
         (Upload.store_player_career_stats t pid d1 now1).length) ∧
    (∀ (t : List Upload.SeasonHighsRow) (pid : Nat) (d1 d2 : PyDict)
       (now1 now2 : Str),
       t.Pairwise (fun a b => a.player_id ≠ b.player_id) →
       (Upload.store_player_season_highs
           (Upload.store_player_season_highs t pid d1 now1)
           pid d2 now2).filter (fun r => decide (r.player_id = pid)) =
         [Upload.formatSeasonHighs pid d2 now2] ∧
       (Upload.store_player_season_highs
           (Upload.store_player_season_highs t pid d1 now1)
           pid d2 now2).length =
         (Upload.store_player_season_highs t pid d1 now1).length) ∧
    (∀ (t : List Simplified.BasicInfoRow) (d1 d2 : PyDict)
       (hs1 hs2 now1 now2 : Str),
       t.Pairwise (fun a b => a.player_id ≠ b.player_id) →
       pyGet d1 "PERSON_ID".toList = pyGet d2 "PERSON_ID".toList →
       (Simplified.store_player_basic_info
           (Simplified.store_player_basic_info t d1 hs1 now1)
           d2 hs2 now2).filter
         (fun r => decide (r.player_id =
           (Simplified.formatBasicInfo d2 hs2 now2).player_id)) =
         [Simplified.formatBasicInfo d2 hs2 now2] ∧
       (Simplified.store_player_basic_info
           (Simplified.store_player_basic_info t d1 hs1 now1)
           d2 hs2 now2).length =
         (Simplified.store_player_basic_info t d1 hs1 now1).length) ∧
    (∀ (t : List Upload.CareerStatsRow) (pid : Nat) (d1 d2 : PyDict)
       (now1 now2 : Str),
       t.Pairwise (fun a b => a.player_id ≠ b.player_id) →
       (Simplified.store_player_career_stats
           (Simplified.store_player_career_stats t pid d1 now1)
           pid d2 now2).filter (fun r => decide (r.player_id = pid)) =
         [Simplified.formatCareerStats pid d2 now2] ∧
       (Simplified.store_player_career_stats
           (Simplified.store_player_career_stats t pid d1 now1)
           pid d2 now2).length =
         (Simplified.store_player_career_stats t pid d1 now1).length) := by
  refine ⟨fun d now => rfl, fun pid d now => ⟨rfl, rfl, rfl⟩,
    fun d hs now => rfl, ?_, ?_, ?_, ?_, ?_, ?_⟩
  · intro t d1 d2 now1 now2 hpw h12
    exact upsertOn_twice (fun r => r.player_id)
      (Upload.formatBasicInfo d1 now1) (Upload.formatBasicInfo d2 now2)
      t hpw h12
  · intro t pid d1 d2 now1 now2 hpw
    exact upsertOn_twice (fun r => r.player_id)
      (Upload.formatCurrentStats pid d1 now1)
      (Upload.formatCurrentStats pid d2 now2) t hpw (by rfl)
  · intro t pid d1 d2 now1 now2 hpw
    exact upsertOn_twice (fun r => r.player_id)
      (Upload.formatCareerStats pid d1 now1)
      (Upload.formatCareerStats pid d2 now2) t hpw (by rfl)
  · intro t pid d1 d2 now1 now2 hpw
    exact upsertOn_twice (fun r => r.player_id)
      (Upload.formatSeasonHighs pid d1 now1)
      (Upload.formatSeasonHighs pid d2 now2) t hpw (by rfl)
  · intro t d1 d2 hs1 hs2 now1 now2 hpw h12
    exact upsertOn_twice (fun r => r.player_id)
      (Simplified.formatBasicInfo d1 hs1 now1)
      (Simplified.formatBasicInfo d2 hs2 now2) t hpw h12
  · intro t pid d1 d2 now1 now2 hpw
    exact upsertOn_twice (fun r => r.player_id)
      (Simplified.formatCareerStats pid d1 now1)
      (Simplified.formatCareerStats pid d2 now2) t hpw (by rfl)

/-- Witness for the upsert theorem: two career-stat stores for player 7
on the empty table leave one row with the second payload. -/
theorem remote_writes_upsert_by_player_id_witness :
    (Upload.store_player_career_stats
        (Upload.store_player_career_stats [] 7
          [("PTS".toList, PyVal.pint 10)] ("t1".toList))
        7 [("PTS".toList, PyVal.pint 25)] ("t2".toList)).filter
      (fun r => decide (r.player_id = 7)) =
      [Upload.formatCareerStats 7 [("PTS".toList, PyVal.pint 25)]
        ("t2".toList)] :=
  (remote_writes_upsert_by_player_id.2.2.2.2.2.1 [] 7
    [("PTS".toList, PyVal.pint 10)] [("PTS".toList, PyVal.pint 25)]
    ("t1".toList) ("t2".toList) List.Pairwise.nil).1

theorem claimedRest_length_le : ∀ ls : List Str,
    (claimedRest ls).length ≤ ls.length := by
  intro ls
  induction ls with
  | nil => simp [claimedRest]
  | cons l ls ih =>
    unfold claimedRest
    split
    · simp
    · exact Nat.le_trans ih (Nat.le_succ _)

theorem claimedParseGo_gas_irrelevant :
    ∀ (g1 : Nat) (lines : List Str) (g2 : Nat), lines.length < g1 →
      lines.length < g2 → claimedParseGo g1 lines = claimedParseGo g2 lines := by
  intro g1
  induction g1 with
  | zero => intro lines g2 h1; omega
  | succ g ih =>
    intro lines g2 h1 h2
    cases g2 with
    | zero => omega
    | succ g2p =>
      cases lines with
      | nil => rfl
      | cons l ls =>
        simp only [claimedParseGo]
        split
        · have hr := claimedRest_length_le ls
          rw [ih (claimedRest ls) g2p (by simp at h1; omega)
            (by simp at h2; omega)]
        · exact ih ls g2p (by simp at h1; omega) (by simp at h2; omega)

theorem claimedParse_nil : claimedParse [] = [] := rfl

theorem claimedParseGo_succ_cons (g : Nat) (l : Str) (ls : List Str) :
    claimedParseGo (g + 1) (l :: ls) =
      if isSeasonHeader (pyStrip l) then
        (claimedKey (pyStrip l), claimedBlock ls) ::
          claimedParseGo g (claimedRest ls)
      else claimedParseGo g ls := rfl

theorem claimedParse_cons_header {l : Str} {ls : List Str}
    (h : isSeasonHeader (pyStrip l) = true) :
    claimedParse (l :: ls) =
      (claimedKey (pyStrip l), claimedBlock ls) ::
        claimedParse (claimedRest ls) := by
  show claimedParseGo (ls.length + 1 + 1) (l :: ls) = _
  rw [claimedParseGo_succ_cons, if_pos h]
  rw [claimedParseGo_gas_irrelevant (ls.length + 1) (claimedRest ls)
    ((claimedRest ls).length + 1)
    (Nat.lt_succ_of_le (claimedRest_length_le ls)) (Nat.lt_succ_self _)]
  rfl

theorem claimedParse_cons_other {l : Str} {ls : List Str}
    (h : isSeasonHeader (pyStrip l) = false) :
    claimedParse (l :: ls) = claimedParse ls := by
  show claimedParseGo (ls.length + 1 + 1) (l :: ls) = _
  rw [claimedParseGo_succ_cons, if_neg (by simp [h])]
  rfl

theorem dictSet_fresh (k : Str) (v : List Str) :
    ∀ d : List (Str × List Str), k ∉ d.map Prod.fst →
      dictSet d k v = d ++ [(k, v)] := by
  intro d
  induction d with
  | nil => intro h; rfl
  | cons kv rest ih =>
    intro h
    obtain ⟨k0, v0⟩ := kv
    simp only [List.map_cons, List.mem_cons] at h
    push_neg at h
    unfold dictSet
    rw [if_neg (fun e => h.1 e.symm), ih h.2]
    rfl

theorem dictAppend_last (k x : Str) (v : List Str) :
    ∀ done : List (Str × List Str), k ∉ done.map Prod.fst →
      dictAppend (done ++ [(k, v)]) k x = done ++ [(k, v ++ [x])] := by
  intro done
  induction done with
  | nil => intro h; simp [dictAppend]
  | cons kv rest ih =>
    intro h
    obtain ⟨k0, v0⟩ := kv
    simp only [List.map_cons, List.mem_cons] at h
    push_neg at h
    show dictAppend ((k0, v0) :: (rest ++ [(k, v)])) k x = _
    unfold dictAppend
    rw [if_neg (fun e => h.1 e.symm), ih h.2]
    rfl

theorem hdrKeys_cons_header {l : Str} {ls : List Str}
    (h : isSeasonHeader (pyStrip l) = true) :
    hdrKeys (l :: ls) = claimedKey (pyStrip l) :: hdrKeys ls := by
  simp [hdrKeys, h]

theorem hdrKeys_cons_other {l : Str} {ls : List Str}
    (h : isSeasonHeader (pyStrip l) = false) :
    hdrKeys (l :: ls) = hdrKeys ls := by
  simp [hdrKeys, h]

theorem takeToSep_of_not_contains (sep : Str) :
    ∀ t : Str, pyContains t sep = false → takeToSep sep t = t := by
  intro t
  induction t with
  | nil => intro h; rfl
  | cons c cs ih =>
    intro h
    have hsplit : (sep.isPrefixOf (c :: cs) = false) ∧
        pyContains cs sep = false := by
      unfold pyContains at h
      rw [List.tails] at h
      simp only [List.any_cons, Bool.or_eq_false_iff] at h
      exact ⟨h.1, h.2⟩
    unfold takeToSep
    rw [if_neg (by simp [hsplit.1]), ih hsplit.2]

theorem codeKey_eq_claimedKey {s : Str}
    (h : pyContains (s.drop 7) seasonTag = false) :
    codeKey s = claimedKey s := by
  unfold codeKey claimedKey
  rw [takeToSep_of_not_contains seasonTag _ h]

theorem parseGoCore_cons (guard : Bool) (d : List (Str × List Str))
    (cur : Option Str) (l : Str) (ls : List Str) :
    parseGoCore guard d cur (l :: ls) =
      if isSeasonHeader (pyStrip l) then
        parseGoCore guard (dictSet d (codeKey (pyStrip l)) [])
          (some (codeKey (pyStrip l))) ls
      else if isContent (pyStrip l) then
        match cur with
        | none => parseGoCore guard d cur ls
        | some k =>
          if guard && k.isEmpty then parseGoCore guard d cur ls
          else parseGoCore guard (dictAppend d k (pyStrip l)) cur ls
      else parseGoCore guard d cur ls := rfl

theorem claimedBlock_cons (l : Str) (ls : List Str) :
    claimedBlock (l :: ls) =
      if isSeasonHeader (pyStrip l) then []
      else if isContent (pyStrip l) then pyStrip l :: claimedBlock ls
      else claimedBlock ls := rfl

theorem claimedRest_cons (l : Str) (ls : List Str) :
    claimedRest (l :: ls) =
      if isSeasonHeader (pyStrip l) then l :: ls else claimedRest ls := rfl

theorem parseGoCore_block (guard : Bool) :
    ∀ (ls : List Str) (done : List (Str × List Str)) (k : Str)
      (v : List Str),
      k ∉ done.map Prod.fst → k ≠ [] →
      (∀ h ∈ hdrKeys ls, h ∉ done.map Prod.fst ∧ h ≠ k) →
      (hdrKeys ls).Pairwise (fun a b => a ≠ b) →
      (∀ h ∈ hdrKeys ls, h ≠ []) →
      (∀ l ∈ ls, isSeasonHeader (pyStrip l) = true →
        pyContains ((pyStrip l).drop 7) seasonTag = false) →
      parseGoCore guard (done ++ [(k, v)]) (some k) ls =
        (done ++ [(k, v ++ claimedBlock ls)]) ++
          claimedParse (claimedRest ls) := by
  intro ls
  induction ls with
  | nil =>
    intro done k v hk hke hfresh hpw hne hemb
    show done ++ [(k, v)] = (done ++ [(k, v ++ claimedBlock [])]) ++
      claimedParse (claimedRest [])
    simp [claimedBlock, claimedRest, claimedParse, claimedParseGo]
  | cons l ls ih =>
    intro done k v hk hke hfresh hpw hne hemb
    by_cases hh : isSeasonHeader (pyStrip l) = true
    · have hkey : codeKey (pyStrip l) = claimedKey (pyStrip l) :=
        codeKey_eq_claimedKey (hemb l (List.mem_cons_self _ _) hh)
      have hKmem : claimedKey (pyStrip l) ∈ hdrKeys (l :: ls) := by
        rw [hdrKeys_cons_header hh]; exact List.mem_cons_self _ _
      have hKfresh := hfresh _ hKmem
      rw [parseGoCore_cons, if_pos hh, hkey]
      rw [dictSet_fresh _ _ _ (by
        simp only [List.map_append, List.map_cons, List.map_nil,
          List.mem_append, List.mem_cons, List.not_mem_nil]
        push_neg
        exact ⟨hKfresh.1, hKfresh.2, fun h => h⟩)]
      rw [List.append_assoc done [(k, v)] [(claimedKey (pyStrip l), [])]]
      rw [show done ++ ([(k, v)] ++ [(claimedKey (pyStrip l), [])]) =
        (done ++ [(k, v)]) ++ [(claimedKey (pyStrip l), [])] by
          rw [List.append_assoc]]
      rw [ih (done ++ [(k, v)]) (claimedKey (pyStrip l)) []
        (by
          simp only [List.map_append, List.map_cons, List.map_nil,
            List.mem_append, List.mem_cons, List.not_mem_nil]
          push_neg
          exact ⟨hKfresh.1, hKfresh.2, fun h => h⟩)
        (hne _ hKmem)
        (by
          intro h hmem
          have hm2 : h ∈ hdrKeys (l :: ls) := by
            rw [hdrKeys_cons_header hh]
            exact List.mem_cons_of_mem _ hmem
          have hf := hfresh _ hm2
          have hpwh := List.pairwise_cons.1 (by
            rw [hdrKeys_cons_header hh] at hpw; exact hpw)
          refine ⟨?_, fun e => (hpwh.1 h hmem) e.symm⟩
          simp only [List.map_append, List.map_cons, List.map_nil,
            List.mem_append, List.mem_cons, List.not_mem_nil]
          push_neg
          exact ⟨hf.1, hf.2, fun x => x⟩)
        (by
          have := List.pairwise_cons.1 (by
            rw [hdrKeys_cons_header hh] at hpw; exact hpw)
          exact this.2)
        (fun h hmem => hne h (by
          rw [hdrKeys_cons_header hh]
          exact List.mem_cons_of_mem _ hmem))
        (fun x hx => hemb x (List.mem_cons_of_mem _ hx))]
      rw [claimedBlock_cons, if_pos hh, claimedRest_cons, if_pos hh]
      rw [claimedParse_cons_header hh]
      simp [List.append_assoc]
    · have hh2 : isSeasonHeader (pyStrip l) = false := by
        simpa using hh
      have hkeys : hdrKeys (l :: ls) = hdrKeys ls := hdrKeys_cons_other hh2
      have hfresh2 : ∀ h ∈ hdrKeys ls, h ∉ done.map Prod.fst ∧ h ≠ k :=
        fun h hm => hfresh h (hkeys ▸ hm)
      have hpw2 : (hdrKeys ls).Pairwise (fun a b => a ≠ b) := hkeys ▸ hpw
      have hne2 : ∀ h ∈ hdrKeys ls, h ≠ [] := fun h hm => hne h (hkeys ▸ hm)
      have hemb2 : ∀ x ∈ ls, isSeasonHeader (pyStrip x) = true →
          pyContains ((pyStrip x).drop 7) seasonTag = false :=
        fun x hx => hemb x (List.mem_cons_of_mem _ hx)
      by_cases hc : isContent (pyStrip l) = true
      · rw [parseGoCore_cons, if_neg (by simp [hh2]), if_pos hc]
        have hguard : (guard && k.isEmpty) = false := by
          cases guard with
          | false => rfl
          | true =>
            simp only [Bool.true_and]
            cases k with
            | nil => exact absurd rfl hke
            | cons c cs => rfl
        simp only [hguard, Bool.false_eq_true, if_false]
        rw [dictAppend_last k (pyStrip l) v done hk]
        rw [ih done k (v ++ [pyStrip l]) hk hke hfresh2 hpw2 hne2 hemb2]
        rw [claimedBlock_cons, if_neg (by simp [hh2]), if_pos hc,
          claimedRest_cons, if_neg (by simp [hh2])]
        simp [List.append_assoc]
      · have hc2 : isContent (pyStrip l) = false := by simpa using hc
        rw [parseGoCore_cons, if_neg (by simp [hh2]), if_neg (by simp [hc2])]
        rw [ih done k v hk hke hfresh2 hpw2 hne2 hemb2]
        rw [claimedBlock_cons, if_neg (by simp [hh2]), if_neg (by simp [hc2]),
          claimedRest_cons, if_neg (by simp [hh2])]

theorem parseGoCore_start (guard : Bool) :
    ∀ ls : List Str,
      (hdrKeys ls).Pairwise (fun a b => a ≠ b) →
      (∀ h ∈ hdrKeys ls, h ≠ []) →
      (∀ l ∈ ls, isSeasonHeader (pyStrip l) = true →
        pyContains ((pyStrip l).drop 7) seasonTag = false) →
      parseGoCore guard [] none ls = claimedParse ls := by
  intro ls
  induction ls with
  | nil => intro hpw hne hemb; rfl
  | cons l ls ih =>
    intro hpw hne hemb
    by_cases hh : isSeasonHeader (pyStrip l) = true
    · have hkey : codeKey (pyStrip l) = claimedKey (pyStrip l) :=
        codeKey_eq_claimedKey (hemb l (List.mem_cons_self _ _) hh)
      have hKmem : claimedKey (pyStrip l) ∈ hdrKeys (l :: ls) := by
        rw [hdrKeys_cons_header hh]; exact List.mem_cons_self _ _
      rw [parseGoCore_cons, if_pos hh, hkey]
      rw [show dictSet [] (claimedKey (pyStrip l)) [] =
        [] ++ [(claimedKey (pyStrip l), [])] from rfl]
      rw [parseGoCore_block guard ls [] (claimedKey (pyStrip l)) []
        (by simp) (hne _ hKmem)
        (by
          intro h hmem
          have hpwh := List.pairwise_cons.1 (by
            rw [hdrKeys_cons_header hh] at hpw; exact hpw)
          exact ⟨by simp, fun e => (hpwh.1 h hmem) e.symm⟩)
        (by
          have := List.pairwise_cons.1 (by
            rw [hdrKeys_cons_header hh] at hpw; exact hpw)
          exact this.2)
        (fun h hmem => hne h (by
          rw [hdrKeys_cons_header hh]
          exact List.mem_cons_of_mem _ hmem))
        (fun x hx => hemb x (List.mem_cons_of_mem _ hx))]
      rw [claimedParse_cons_header hh]
      simp
    · have hh2 : isSeasonHeader (pyStrip l) = false := by simpa using hh
      have hkeys : hdrKeys (l :: ls) = hdrKeys ls := hdrKeys_cons_other hh2
      rw [parseGoCore_cons, if_neg (by simp [hh2])]
      rw [claimedParse_cons_other hh2]
      have htail := ih (hkeys ▸ hpw) (fun h hm => hne h (hkeys ▸ hm))
        (fun x hx => hemb x (List.mem_cons_of_mem _ hx))
      by_cases hc : isContent (pyStrip l) = true
      · rw [if_pos hc]
        exact htail
      · rw [if_neg (by simpa using hc)]
        exact htail

/-- C7 counterexample: on the file `["Season:", "Alice"]` the playoff
parser creates the key `""` but drops the line `"Alice"` (the empty
season name is falsy), so the value is `[]` where the claim requires
`["Alice"]`. -/
theorem roster_parse_counterexample :
    Playoff.parse_roster_txt ["Season:".toList, "Alice".toList] =
      [([], [])] ∧
    claimedParse ["Season:".toList, "Alice".toList] =
      [([], ["Alice".toList])] ∧
    ¬ ([(([] : Str), ([] : List Str))] = [([], ["Alice".toList])]) := by
  decide

/-- C7 amended: provided every `'Season:'` header carries a non-empty
season name, no two headers carry the same name, and no season name
itself contains `'Season:'`, both parsers return exactly the mapping the
claim describes: one entry per header, keyed by the stripped text after
the tag, valued by the subsequent stripped non-empty non-`'='` lines up
to the next header, with pre-header lines ignored. -/
theorem roster_parse_amended :
    ∀ lines : List Str,
      (hdrKeys lines).Pairwise (fun a b => a ≠ b) →
      (∀ k ∈ hdrKeys lines, k ≠ []) →
      (∀ l ∈ lines, isSeasonHeader (pyStrip l) = true →
        pyContains ((pyStrip l).drop 7) seasonTag = false) →
      GameLogs.parse_roster_txt lines = claimedParse lines ∧
      Playoff.parse_roster_txt lines = claimedParse lines :=
  fun lines h1 h2 h3 =>
    ⟨parseGoCore_start false lines h1 h2 h3,
     parseGoCore_start true lines h1 h2 h3⟩

/-- Witness for the amended parse theorem on a concrete two-season
roster file with a ruler line, a blank line and a pre-header line. -/
theorem roster_parse_amended_witness :
    GameLogs.parse_roster_txt
        ["ignored".toList, "Season: 2022-23".toList, "=====".toList,
         [], "Alice".toList, "Bob".toList, "Season: 2021-22".toList,
         "Carol".toList] =
      [("2022-23".toList, ["Alice".toList, "Bob".toList]),
       ("2021-22".toList, ["Carol".toList])] ∧
    Playoff.parse_roster_txt
        ["ignored".toList, "Season: 2022-23".toList, "=====".toList,
         [], "Alice".toList, "Bob".toList, "Season: 2021-22".toList,
         "Carol".toList] =
      [("2022-23".toList, ["Alice".toList, "Bob".toList]),
       ("2021-22".toList, ["Carol".toList])] := by
  have h := roster_parse_amended
    ["ignored".toList, "Season: 2022-23".toList, "=====".toList,
     [], "Alice".toList, "Bob".toList, "Season: 2021-22".toList,
     "Carol".toList]
    (by
      rw [show hdrKeys ["ignored".toList, "Season: 2022-23".toList,
        "=====".toList, [], "Alice".toList, "Bob".toList,
        "Season: 2021-22".toList, "Carol".toList] =
        ["2022-23".toList, "2021-22".toList] from by decide]
      exact List.pairwise_cons.2 ⟨by decide, List.pairwise_cons.2
        ⟨by decide, List.Pairwise.nil⟩⟩)
    (by decide) (by decide)
  refine ⟨h.1.trans (by decide), h.2.trans (by decide)⟩
